import Mathlib

/-!
Verification of the palette-recoloring core of `Color_nedo_hunt.py`.

Shallow embedding of the color-processing core of the repository:
`ColorUtility` (normalization, validation, luminance), the three
`RecolorStrategy` variants, and `ColorRecolorService.recolor_palette`.

Python floats are modelled as exact real numbers.  Python strings are
modelled as Lean strings (`List Char` underneath); `str.strip`/`str.lower`
are modelled for ASCII plus the Cyrillic letters that the code's
transliteration table mentions, which covers every character class the
program distinguishes.  The third-party calls that the core makes are
embedded as well:

* `colorsys.rgb_to_hls` / `colorsys.hls_to_rgb` / `colorsys._v` are
  translated verbatim from CPython's `colorsys.py`;
* `PIL.ImageColor.getrgb` is modelled for Pillow >= 7.0: lowercasing, the
  CSS3 named-color table, the `#rgb` / `#rgba` / `#rrggbb` / `#rrggbbaa`
  hexadecimal forms, and the functional notations `rgb(r, g, b)`,
  `rgb(r%, g%, b%)`, `hsl(h, s%, l%)`, `hsv/hsb(h, s%, v%)` and
  `rgba(r, g, b, a)`, tried in the library's order.  The library's
  patterns are `$`-anchored, so a single trailing newline is tolerated
  and is modelled.  `\s` and `\d` are modelled by their ASCII parts, and
  the float arithmetic of the percent/hsl/hsv channel computations by
  exact rationals.  `getrgb` performs no range check, so `hsl`/`hsv`
  inputs can produce channels outside `[0, 255]` (even negative ones);
  parsed tuples are therefore integer lists.

Exceptions (`ValueError` from `getrgb`, tuple-unpacking errors) are
modelled by `Option`: `none` is a raised exception.
-/

namespace ColorNedoHunt

/-! ## Python string primitives -/

/-- Whitespace stripped by `str.strip()` (ASCII whitespace; the program
only ever distinguishes whitespace from hex digits and `#`). -/
def isPySpace (c : Char) : Bool :=
  c = ' ' || c = '\t' || c = '\n' || c = '\x0d' || c = Char.ofNat 11 || c = Char.ofNat 12

/-- `str.lower()` on the alphabets the program can meet: ASCII letters and
the Cyrillic letters of the transliteration table (U+0410–U+042F and Ё). -/
def pyToLower (c : Char) : Char :=
  if 'A' ≤ c ∧ c ≤ 'Z' then Char.ofNat (c.toNat + 32)
  else if Char.ofNat 0x410 ≤ c ∧ c ≤ Char.ofNat 0x42F then Char.ofNat (c.toNat + 32)
  else if c = Char.ofNat 0x401 then Char.ofNat 0x451
  else c

def pyLowerL (l : List Char) : List Char := l.map pyToLower

/-- `str.strip()`: drop whitespace from both ends. -/
def pyStripL (l : List Char) : List Char :=
  ((l.dropWhile isPySpace).reverse.dropWhile isPySpace).reverse

/-- The `CYRILLIC_TO_LATIN` table of `ColorUtility`, as a per-character
substitution.  The successive `str.replace` calls of `normalize_color` are
equivalent to one simultaneous character-wise substitution because every
key is a single Cyrillic character and no replacement produces a Cyrillic
character.  Keys are written by code point: 0x430 а, 0x432 в, 0x441 с,
0x435 е, 0x43A к, 0x43C м, 0x43E о, 0x440 р, 0x442 т, 0x445 х, 0x443 у,
0x451 ё, 0x44A ъ, 0x44C ь, 0x44B ы, 0x44D э, 0x44E ю, 0x44F я. -/
def cyrSubst (c : Char) : List Char :=
  if c = Char.ofNat 0x430 then [ 'a' ]
  else if c = Char.ofNat 0x432 then [ 'b' ]
  else if c = Char.ofNat 0x441 then [ 'c' ]
  else if c = Char.ofNat 0x435 then [ 'e' ]
  else if c = Char.ofNat 0x43A then [ 'k' ]
  else if c = Char.ofNat 0x43C then [ 'm' ]
  else if c = Char.ofNat 0x43E then [ 'o' ]
  else if c = Char.ofNat 0x440 then [ 'p' ]
  else if c = Char.ofNat 0x442 then [ 't' ]
  else if c = Char.ofNat 0x445 then [ 'x' ]
  else if c = Char.ofNat 0x443 then [ 'y' ]
  else if c = Char.ofNat 0x451 then [ 'e' ]
  else if c = Char.ofNat 0x44A then []
  else if c = Char.ofNat 0x44C then []
  else if c = Char.ofNat 0x44B then [ 'y' ]
  else if c = Char.ofNat 0x44D then [ 'e' ]
  else if c = Char.ofNat 0x44E then [ 'y', 'u' ]
  else if c = Char.ofNat 0x44F then [ 'y', 'a' ]
  else [ c ]

def cyrExpandL (l : List Char) : List Char := (l.map cyrSubst).flatten

/-- The 17 characters of the class kept by
`re.sub(r'[^0-9a-f#]', '', color)`; only set membership matters, so the
order of enumeration is immaterial. -/
def hexHashChars : List Char :=
  ['#', '0', '1', '2', '3', '4', '5', '6', '7', '8', '9',
   'f', 'e', 'd', 'c', 'b', 'a']

/-- Membership in the kept character class `[0-9a-f#]`. -/
def keepChar (c : Char) : Bool := hexHashChars.contains c

def hexFilterL (l : List Char) : List Char := l.filter keepChar

/-- `''.join(c * 2 for c in l)`. -/
def doubleChars (l : List Char) : List Char := (l.map (fun c => [c, c])).flatten

/-- The length/prefix dispatch at the end of `ColorUtility.normalize_color`
(lines 74–86 of the source). -/
def shapeL (l : List Char) : List Char :=
  if l.head? = some '#' then
    if l.length = 4 then '#' :: doubleChars l.tail
    else pyLowerL l
  else if l.length = 3 then '#' :: doubleChars l
  else if l.length = 6 then '#' :: l
  else l

/-- `ColorUtility.normalize_color` on the underlying character list. -/
def normalizeL (l : List Char) : List Char :=
  if l = [] then l
  else shapeL (hexFilterL (cyrExpandL (pyLowerL (pyStripL l))))

def ColorUtility.normalize_color (s : String) : String := ⟨normalizeL s.data⟩

/-! ## `PIL.ImageColor.getrgb` (Pillow >= 7.0) -/

/-- Lowercase hexadecimal digit, as in the library's `[a-f0-9]` patterns. -/
def isHexDigit (c : Char) : Bool :=
  ('0' ≤ c ∧ c ≤ '9') || ('a' ≤ c ∧ c ≤ 'f')

def hexVal (c : Char) : ℤ :=
  if c ≤ '9' then (c.toNat : ℤ) - 48 else (c.toNat : ℤ) - 87

def hexPair (a b : Char) : ℤ := 16 * hexVal a + hexVal b

/-- The CSS3 named-color table of `PIL.ImageColor.colormap` (values are the
`#rrggbb` strings the library stores; they are re-parsed on lookup, as in
the library). -/
def colormap : List (String × String) :=
  [("aliceblue", "#f0f8ff"), ("antiquewhite", "#faebd7"), ("aqua", "#00ffff"),
   ("aquamarine", "#7fffd4"), ("azure", "#f0ffff"), ("beige", "#f5f5dc"),
   ("bisque", "#ffe4c4"), ("black", "#000000"), ("blanchedalmond", "#ffebcd"),
   ("blue", "#0000ff"), ("blueviolet", "#8a2be2"), ("brown", "#a52a2a"),
   ("burlywood", "#deb887"), ("cadetblue", "#5f9ea0"), ("chartreuse", "#7fff00"),
   ("chocolate", "#d2691e"), ("coral", "#ff7f50"), ("cornflowerblue", "#6495ed"),
   ("cornsilk", "#fff8dc"), ("crimson", "#dc143c"), ("cyan", "#00ffff"),
   ("darkblue", "#00008b"), ("darkcyan", "#008b8b"), ("darkgoldenrod", "#b8860b"),
   ("darkgray", "#a9a9a9"), ("darkgrey", "#a9a9a9"), ("darkgreen", "#006400"),
   ("darkkhaki", "#bdb76b"), ("darkmagenta", "#8b008b"),
   ("darkolivegreen", "#556b2f"), ("darkorange", "#ff8c00"),
   ("darkorchid", "#9932cc"), ("darkred", "#8b0000"), ("darksalmon", "#e9967a"),
   ("darkseagreen", "#8fbc8f"), ("darkslateblue", "#483d8b"),
   ("darkslategray", "#2f4f4f"), ("darkslategrey", "#2f4f4f"),
   ("darkturquoise", "#00ced1"), ("darkviolet", "#9400d3"),
   ("deeppink", "#ff1493"), ("deepskyblue", "#00bfff"), ("dimgray", "#696969"),
   ("dimgrey", "#696969"), ("dodgerblue", "#1e90ff"), ("firebrick", "#b22222"),
   ("floralwhite", "#fffaf0"), ("forestgreen", "#228b22"), ("fuchsia", "#ff00ff"),
   ("gainsboro", "#dcdcdc"), ("ghostwhite", "#f8f8ff"), ("gold", "#ffd700"),
   ("goldenrod", "#daa520"), ("gray", "#808080"), ("grey", "#808080"),
   ("green", "#008000"), ("greenyellow", "#adff2f"), ("honeydew", "#f0fff0"),
   ("hotpink", "#ff69b4"), ("indianred", "#cd5c5c"), ("indigo", "#4b0082"),
   ("ivory", "#fffff0"), ("khaki", "#f0e68c"), ("lavender", "#e6e6fa"),
   ("lavenderblush", "#fff0f5"), ("lawngreen", "#7cfc00"),
   ("lemonchiffon", "#fffacd"), ("lightblue", "#add8e6"),
   ("lightcoral", "#f08080"), ("lightcyan", "#e0ffff"),
   ("lightgoldenrodyellow", "#fafad2"), ("lightgreen", "#90ee90"),
   ("lightgray", "#d3d3d3"), ("lightgrey", "#d3d3d3"), ("lightpink", "#ffb6c1"),
   ("lightsalmon", "#ffa07a"), ("lightseagreen", "#20b2aa"),
   ("lightskyblue", "#87cefa"), ("lightslategray", "#778899"),
   ("lightslategrey", "#778899"), ("lightsteelblue", "#b0c4de"),
   ("lightyellow", "#ffffe0"), ("lime", "#00ff00"), ("limegreen", "#32cd32"),
   ("linen", "#faf0e6"), ("magenta", "#ff00ff"), ("maroon", "#800000"),
   ("mediumaquamarine", "#66cdaa"), ("mediumblue", "#0000cd"),
   ("mediumorchid", "#ba55d3"), ("mediumpurple", "#9370db"),
   ("mediumseagreen", "#3cb371"), ("mediumslateblue", "#7b68ee"),
   ("mediumspringgreen", "#00fa9a"), ("mediumturquoise", "#48d1cc"),
   ("mediumvioletred", "#c71585"), ("midnightblue", "#191970"),
   ("mintcream", "#f5fffa"), ("mistyrose", "#ffe4e1"), ("moccasin", "#ffe4b5"),
   ("navajowhite", "#ffdead"), ("navy", "#000080"), ("oldlace", "#fdf5e6"),
   ("olive", "#808000"), ("olivedrab", "#6b8e23"), ("orange", "#ffa500"),
   ("orangered", "#ff4500"), ("orchid", "#da70d6"),
   ("palegoldenrod", "#eee8aa"), ("palegreen", "#98fb98"),
   ("paleturquoise", "#afeeee"), ("palevioletred", "#db7093"),
   ("papayawhip", "#ffefd5"), ("peachpuff", "#ffdab9"), ("peru", "#cd853f"),
   ("pink", "#ffc0cb"), ("plum", "#dda0dd"), ("powderblue", "#b0e0e6"),
   ("purple", "#800080"), ("rebeccapurple", "#663399"), ("red", "#ff0000"),
   ("rosybrown", "#bc8f8f"), ("royalblue", "#4169e1"),
   ("saddlebrown", "#8b4513"), ("salmon", "#fa8072"), ("sandybrown", "#f4a460"),
   ("seagreen", "#2e8b57"), ("seashell", "#fff5ee"), ("sienna", "#a0522d"),
   ("silver", "#c0c0c0"), ("skyblue", "#87ceeb"), ("slateblue", "#6a5acd"),
   ("slategray", "#708090"), ("slategrey", "#708090"), ("snow", "#fffafa"),
   ("springgreen", "#00ff7f"), ("steelblue", "#4682b4"), ("tan", "#d2b48c"),
   ("teal", "#008080"), ("thistle", "#d8bfd8"), ("tomato", "#ff6347"),
   ("turquoise", "#40e0d0"), ("violet", "#ee82ee"), ("wheat", "#f5deb3"),
   ("white", "#ffffff"), ("whitesmoke", "#f5f5f5"), ("yellow", "#ffff00"),
   ("yellowgreen", "#9acd32")]

/-- The digit-count dispatch of the hexadecimal forms: 3 or 4 digits are
doubled (`int(c * 2, 16) = 17 * value`), 6 or 8 digits are read as pairs;
any other digit count is rejected. -/
def hexCore : List Char → Option (List ℤ)
  | [a, b, c] => some [17 * hexVal a, 17 * hexVal b, 17 * hexVal c]
  | [a, b, c, d] =>
    some [17 * hexVal a, 17 * hexVal b, 17 * hexVal c, 17 * hexVal d]
  | [a, b, c, d, e, f] => some [hexPair a b, hexPair c d, hexPair e f]
  | [a, b, c, d, e, f, g, h] =>
    some [hexPair a b, hexPair c d, hexPair e f, hexPair g h]
  | _ => none

/-- The `#`-prefixed hexadecimal forms of `getrgb`: `#rgb`, `#rgba`,
`#rrggbb`, `#rrggbbaa`.  The library's patterns are `$`-anchored, so a
single trailing newline is tolerated. -/
def hexRGB (l : List Char) : Option (List ℤ) :=
  let core := if l.getLast? = some '\n' then l.dropLast else l
  match core with
  | [] => none
  | c0 :: ds => if c0 = '#' then (if ds.all isHexDigit then hexCore ds else none)
      else none

/-! ### The functional notations of `getrgb`

`rgb(...)`, `rgb(...%)`, `hsl(...)`, `hsv(...)`/`hsb(...)` and
`rgba(...)`, parsed like the library's `$`-anchored regular expressions.
The `hsl`/`hsv` conversions call `colorsys`, here translated over the
rationals so that the parser stays executable. -/

/-- `\s*` (ASCII whitespace). -/
def skipSpaces (l : List Char) : List Char := l.dropWhile isPySpace

def digitsVal (ds : List Char) : ℕ :=
  ds.foldl (fun n c => 10 * n + (c.toNat - 48)) 0

/-- `(\d+)`: one or more ASCII digits, returning the value and the rest. -/
def parseNat (l : List Char) : Option (ℕ × List Char) :=
  let ds := l.takeWhile Char.isDigit
  if ds = [] then none else some (digitsVal ds, l.drop ds.length)

/-- `(\d+\.?\d*)`: a decimal number, returned as an exact rational. -/
def parseDec (l : List Char) : Option (ℚ × List Char) :=
  let ds := l.takeWhile Char.isDigit
  if ds = [] then none
  else
    match l.drop ds.length with
    | '.' :: rest2 =>
      let fs := rest2.takeWhile Char.isDigit
      some ((digitsVal ds : ℚ) + (digitsVal fs : ℚ) / (10 : ℚ) ^ fs.length,
        rest2.drop fs.length)
    | rest => some ((digitsVal ds : ℚ), rest)

def expectChar (c : Char) (l : List Char) : Option (List Char) :=
  match l with
  | c0 :: rest => if c0 = c then some rest else none
  | [] => none

def expectStr (p : List Char) (l : List Char) : Option (List Char) :=
  if p.isPrefixOf l then some (l.drop p.length) else none

/-- `$`: end of input, or just before a single trailing newline. -/
def atLineEnd (l : List Char) : Bool := l = [] || l = ['\n']

/-- Python `int()` truncation toward zero, on rationals. -/
def pyTruncQ (x : ℚ) : ℤ := if x < 0 then ⌈x⌉ else ⌊x⌋

/-- `int(x * 255 + 0.5)`: the channel rounding of the `hsl`/`hsv` paths. -/
def qChannel (x : ℚ) : ℤ := pyTruncQ (x * 255 + 1 / 2)

/-- `int((v * 255) / 100.0 + 0.5)`: the percent-form channel;
`(255 v)/100 + 1/2 = (51 v + 10)/20`, truncated. -/
def pct255 (v : ℕ) : ℕ := (51 * v + 10) / 20

/-- `colorsys._v` over the rationals (see `hls_v`). -/
def hls_vQ (m1 m2 hue : ℚ) : ℚ :=
  if Int.fract hue < 1 / 6 then m1 + (m2 - m1) * Int.fract hue * 6
  else if Int.fract hue < 0.5 then m2
  else if Int.fract hue < 2 / 3 then m1 + (m2 - m1) * (2 / 3 - Int.fract hue) * 6
  else m1

/-- `colorsys.hls_to_rgb` over the rationals (see `hls_to_rgb`). -/
def hls_to_rgbQ (h l s : ℚ) : ℚ × ℚ × ℚ :=
  if s = 0 then (l, l, l)
  else
    let m2 := if l ≤ 0.5 then l * (1 + s) else l + s - l * s
    let m1 := 2 * l - m2
    (hls_vQ m1 m2 (h + 1 / 3), hls_vQ m1 m2 h, hls_vQ m1 m2 (h - 1 / 3))

/-- `colorsys.hsv_to_rgb` over the rationals: `i = int(h*6.0)` truncates,
`i % 6` is Python's nonnegative remainder. -/
def hsv_to_rgbQ (h s v : ℚ) : ℚ × ℚ × ℚ :=
  if s = 0 then (v, v, v)
  else
    let i0 := pyTruncQ (h * 6)
    let f := h * 6 - (i0 : ℚ)
    let p := v * (1 - s)
    let q := v * (1 - s * f)
    let t := v * (1 - s * (1 - f))
    let i := i0 % 6
    if i = 0 then (v, t, p)
    else if i = 1 then (q, v, p)
    else if i = 2 then (p, q, v)
    else if i = 3 then (p, v, q)
    else if i = 4 then (t, p, v)
    else (q, p, v)

/-- `rgb\(\s*(\d+)\s*,\s*(\d+)\s*,\s*(\d+)\s*\)$`. -/
def matchRGBInt (l : List Char) : Option (List ℤ) := do
  let l ← expectStr ['r', 'g', 'b', '('] l
  let (v1, l) ← parseNat (skipSpaces l)
  let l ← expectChar ',' (skipSpaces l)
  let (v2, l) ← parseNat (skipSpaces l)
  let l ← expectChar ',' (skipSpaces l)
  let (v3, l) ← parseNat (skipSpaces l)
  let l ← expectChar ')' (skipSpaces l)
  if atLineEnd l then some [(v1 : ℤ), (v2 : ℤ), (v3 : ℤ)] else none

/-- `rgb\(\s*(\d+)%\s*,\s*(\d+)%\s*,\s*(\d+)%\s*\)$`. -/
def matchRGBPct (l : List Char) : Option (List ℤ) := do
  let l ← expectStr ['r', 'g', 'b', '('] l
  let (v1, l) ← parseNat (skipSpaces l)
  let l ← expectChar '%' l
  let l ← expectChar ',' (skipSpaces l)
  let (v2, l) ← parseNat (skipSpaces l)
  let l ← expectChar '%' l
  let l ← expectChar ',' (skipSpaces l)
  let (v3, l) ← parseNat (skipSpaces l)
  let l ← expectChar '%' l
  let l ← expectChar ')' (skipSpaces l)
  if atLineEnd l then some [(pct255 v1 : ℤ), (pct255 v2 : ℤ), (pct255 v3 : ℤ)]
  else none

/-- `hsl\(\s*(\d+\.?\d*)\s*,\s*(\d+\.?\d*)%\s*,\s*(\d+\.?\d*)%\s*\)$`:
`hls_to_rgb(h/360, l/100, s/100)` with channels `int(x*255 + 0.5)`. -/
def matchHSL (l : List Char) : Option (List ℤ) := do
  let l ← expectStr ['h', 's', 'l', '('] l
  let (h, l) ← parseDec (skipSpaces l)
  let l ← expectChar ',' (skipSpaces l)
  let (s, l) ← parseDec (skipSpaces l)
  let l ← expectChar '%' l
  let l ← expectChar ',' (skipSpaces l)
  let (li, l) ← parseDec (skipSpaces l)
  let l ← expectChar '%' l
  let l ← expectChar ')' (skipSpaces l)
  if atLineEnd l then
    let (r, g, b) := hls_to_rgbQ (h / 360) (li / 100) (s / 100)
    some [qChannel r, qChannel g, qChannel b]
  else none

/-- `hs[bv]\(\s*(\d+\.?\d*)\s*,\s*(\d+\.?\d*)%\s*,\s*(\d+\.?\d*)%\s*\)$`:
`hsv_to_rgb(h/360, s/100, v/100)` with channels `int(x*255 + 0.5)`. -/
def matchHSV (l : List Char) : Option (List ℤ) := do
  let l ← expectStr ['h', 's', 'v', '('] l <|> expectStr ['h', 's', 'b', '('] l
  let (h, l) ← parseDec (skipSpaces l)
  let l ← expectChar ',' (skipSpaces l)
  let (s, l) ← parseDec (skipSpaces l)
  let l ← expectChar '%' l
  let l ← expectChar ',' (skipSpaces l)
  let (v, l) ← parseDec (skipSpaces l)
  let l ← expectChar '%' l
  let l ← expectChar ')' (skipSpaces l)
  if atLineEnd l then
    let (r, g, b) := hsv_to_rgbQ (h / 360) (s / 100) (v / 100)
    some [qChannel r, qChannel g, qChannel b]
  else none

/-- `rgba\(\s*(\d+)\s*,\s*(\d+)\s*,\s*(\d+)\s*,\s*(\d+)\s*\)$`. -/
def matchRGBA (l : List Char) : Option (List ℤ) := do
  let l ← expectStr ['r', 'g', 'b', 'a', '('] l
  let (v1, l) ← parseNat (skipSpaces l)
  let l ← expectChar ',' (skipSpaces l)
  let (v2, l) ← parseNat (skipSpaces l)
  let l ← expectChar ',' (skipSpaces l)
  let (v3, l) ← parseNat (skipSpaces l)
  let l ← expectChar ',' (skipSpaces l)
  let (v4, l) ← parseNat (skipSpaces l)
  let l ← expectChar ')' (skipSpaces l)
  if atLineEnd l then some [(v1 : ℤ), (v2 : ℤ), (v3 : ℤ), (v4 : ℤ)] else none

/-- `PIL.ImageColor.getrgb`: lowercase, look up the named-color table,
then try the hexadecimal forms and the functional notations, in the
library's order.  `none` models the `ValueError` raised on any other
input. -/
def getrgbL (l : List Char) : Option (List ℤ) :=
  let low := pyLowerL l
  match List.lookup (⟨low⟩ : String) colormap with
  | some hex => hexRGB hex.data
  | none =>
      hexRGB low <|> matchRGBInt low <|> matchRGBPct low <|> matchHSL low <|>
        matchHSV low <|> matchRGBA low

/-! ## `ColorUtility.is_valid_color` -/

/-- `ColorUtility.is_valid_color`: empty or whitespace-only input is
invalid; otherwise normalize and try `getrgb`. -/
def ColorUtility.is_valid_color (s : String) : Bool :=
  if s.data = [] then false
  else if pyStripL s.data = [] then false
  else
    let n := normalizeL s.data
    if n = [] then false
    else (getrgbL n).isSome

/-! ## Numeric primitives -/

/-- Python `int(x)`: truncation toward zero. -/
noncomputable def pyTrunc (x : ℝ) : ℤ := if x < 0 then ⌈x⌉ else ⌊x⌋

/-- Python `round(x)` (to an integer): round half to even. -/
noncomputable def pyRound (x : ℝ) : ℤ :=
  if Int.fract x = 1 / 2 then (if Even ⌊x⌋ then ⌊x⌋ else ⌊x⌋ + 1) else round x

/-- `np.clip(x, lo, hi)`. -/
noncomputable def npClip (x lo hi : ℝ) : ℝ := min (max x lo) hi

/-! ## `colorsys` (translated from CPython's `colorsys.py`) -/

/-- `colorsys.rgb_to_hls`.  The returned triple is `(h, l, s)`. -/
noncomputable def rgb_to_hls (r g b : ℝ) : ℝ × ℝ × ℝ :=
  let maxc := max r (max g b)
  let minc := min r (min g b)
  let sumc := maxc + minc
  let rangec := maxc - minc
  let l := sumc / 2
  if minc = maxc then (0, l, 0)
  else
    let s := if l ≤ 0.5 then rangec / sumc else rangec / (2 - sumc)
    let rc := (maxc - r) / rangec
    let gc := (maxc - g) / rangec
    let bc := (maxc - b) / rangec
    let h := if r = maxc then bc - gc else if g = maxc then 2 + rc - bc else 4 + gc - rc
    (Int.fract (h / 6), l, s)

/-- `colorsys._v`.  The function first rebinds `hue = hue % 1.0`, which is
`Int.fract hue`. -/
noncomputable def hls_v (m1 m2 hue : ℝ) : ℝ :=
  if Int.fract hue < 1 / 6 then m1 + (m2 - m1) * Int.fract hue * 6
  else if Int.fract hue < 0.5 then m2
  else if Int.fract hue < 2 / 3 then m1 + (m2 - m1) * (2 / 3 - Int.fract hue) * 6
  else m1

/-- `colorsys.hls_to_rgb`. -/
noncomputable def hls_to_rgb (h l s : ℝ) : ℝ × ℝ × ℝ :=
  if s = 0 then (l, l, l)
  else
    let m2 := if l ≤ 0.5 then l * (1 + s) else l + s - l * s
    let m1 := 2 * l - m2
    (hls_v m1 m2 (h + 1 / 3), hls_v m1 m2 h, hls_v m1 m2 (h - 1 / 3))

/-! ## `ColorUtility.relative_luminance` -/

/-- The per-channel gamma adjustment of `relative_luminance` (the inner
`adjust`).  `x ^ 2.4` on floats is the real power. -/
noncomputable def adjustChannel (c : ℝ) : ℝ :=
  if c ≤ 0.04045 then c / 12.92 else ((c + 0.055) / 1.055) ^ (2.4 : ℝ)

/-- `ColorUtility.relative_luminance` on an RGB triple of 8-bit channel
values. -/
noncomputable def ColorUtility.relative_luminance (r g b : ℤ) : ℝ :=
  0.2126 * adjustChannel ((r : ℝ) / 255) + 0.7152 * adjustChannel ((g : ℝ) / 255)
    + 0.0722 * adjustChannel ((b : ℝ) / 255)

/-- `relative_luminance` applied to whatever tuple `getrgb` returned:
unpacking `r, g, b = [x / 255.0 for x in rgb]` raises (is `none`) unless
the tuple has exactly three components. -/
noncomputable def relLumOf (rgb : List ℤ) : Option ℝ :=
  match rgb with
  | [r, g, b] => some (ColorUtility.relative_luminance r g b)
  | _ => none

/-- `colorsys.rgb_to_hls(*(np.array(rgb) / 255.0))`: scaling a `getrgb`
tuple and star-unpacking it into `rgb_to_hls`, which raises (is `none`)
unless the tuple has exactly three components. -/
noncomputable def rgbToHls3 (rgb : List ℤ) : Option (ℝ × ℝ × ℝ) :=
  match rgb with
  | [r, g, b] => some (rgb_to_hls ((r : ℝ) / 255) ((g : ℝ) / 255) ((b : ℝ) / 255))
  | _ => none

/-! ## The three recolor strategies -/

/-- `RecolorMode`. -/
inductive RecolorMode where
  | KEEP_HUE
  | FULL_RECOLOR
  | MIXED

/-- `KeepHueStrategy.recolor`.  Triples are `(h, l, s)`; `lq` is the
luminance ratio. -/
noncomputable def KeepHueStrategy.recolor (original_hls target_hls : ℝ × ℝ × ℝ)
    (lq intensity : ℝ) : ℝ × ℝ × ℝ :=
  let (orig_h, orig_l, orig_s) := original_hls
  let (_, _, target_s) := target_hls
  let new_h := orig_h
  let new_l := 0.2 + 0.7 * lq
  let new_s := target_s * 0.7 + orig_s * 0.3
  if intensity < 1 then
    (orig_h * (1 - intensity) + new_h * intensity,
     orig_l * (1 - intensity) + new_l * intensity,
     orig_s * (1 - intensity) + new_s * intensity)
  else (new_h, new_l, new_s)

/-- `FullRecolorStrategy.recolor`.  The original luminance is recomputed
from `original_hls` converted back to RGB with `int(c * 255)`
truncation. -/
noncomputable def FullRecolorStrategy.recolor (original_hls target_hls : ℝ × ℝ × ℝ)
    (lq intensity : ℝ) : ℝ × ℝ × ℝ :=
  let (orig_h, orig_l, orig_s) := original_hls
  let (target_h, _, target_s) := target_hls
  let new_h := target_h
  let new_l := if lq > 0.7 then 0.5 + 0.4 * lq else 0.2 + 0.5 * lq
  let (rr, rg, rb) := hls_to_rgb orig_h orig_l orig_s
  let orig_lum :=
    ColorUtility.relative_luminance (pyTrunc (rr * 255)) (pyTrunc (rg * 255))
      (pyTrunc (rb * 255))
  let new_s := target_s * (0.8 + 0.2 * (1 - orig_lum))
  if intensity < 1 then
    (orig_h * (1 - intensity) + new_h * intensity,
     orig_l * (1 - intensity) + new_l * intensity,
     orig_s * (1 - intensity) + new_s * intensity)
  else (new_h, new_l, new_s)

/-- `MixedStrategy.recolor`. -/
noncomputable def MixedStrategy.recolor (original_hls target_hls : ℝ × ℝ × ℝ)
    (lq intensity : ℝ) : ℝ × ℝ × ℝ :=
  let (orig_h, orig_l, orig_s) := original_hls
  let (target_h, _, target_s) := target_hls
  (orig_h * (1 - intensity) + target_h * intensity,
   orig_l * (1 - intensity) + (0.3 + 0.6 * lq) * intensity,
   orig_s * (1 - intensity) + target_s * intensity)

/-- `StrategyFactory.get_strategy`: the dictionary covers all three modes,
so the `FULL_RECOLOR` default of `.get` is unreachable. -/
noncomputable def StrategyFactory.get_strategy (mode : RecolorMode) :
    (ℝ × ℝ × ℝ) → (ℝ × ℝ × ℝ) → ℝ → ℝ → ℝ × ℝ × ℝ :=
  match mode with
  | RecolorMode.KEEP_HUE => KeepHueStrategy.recolor
  | RecolorMode.FULL_RECOLOR => FullRecolorStrategy.recolor
  | RecolorMode.MIXED => MixedStrategy.recolor

/-! ## `ColorRecolorService.recolor_palette` -/

/-- `ColorResult`. -/
structure ColorResult where
  original : String
  new_color : String
  luminance : ℝ

/-- `"{:02x}"` of a natural number: lowercase hex, left-padded with `0`
to width two (longer if the number needs more digits).  Fuel-driven so
that it reduces definitionally; the fuel `n + 1` always suffices. -/
def natHexAux : ℕ → ℕ → List Char → List Char
  | 0, _, acc => acc
  | fuel + 1, n, acc =>
    if n < 16 then Nat.digitChar n :: acc
    else natHexAux fuel (n / 16) (Nat.digitChar (n % 16) :: acc)

def natHex (n : ℕ) : List Char := natHexAux (n + 1) n []

def format02x (n : ℤ) : List Char :=
  if n < 0 then '-' :: natHex n.natAbs
  else
    let ds := natHex n.natAbs
    if ds.length < 2 then '0' :: ds else ds

/-- `ColorUtility.rgb_to_hex`. -/
def ColorUtility.rgb_to_hex (r g b : ℤ) : String :=
  ⟨'#' :: (format02x r ++ format02x g ++ format02x b)⟩

/-- The list comprehension of step 1 of `recolor_palette`: keep the
entries accepted by `is_valid_color`, normalized. -/
def validColors (colors : List String) : List String :=
  (colors.filter (fun c => ColorUtility.is_valid_color c)).map
    ColorUtility.normalize_color

/-- `lum_range = max_lum - min_lum if max_lum != min_lum else 1.0`. -/
noncomputable def lumRangeOf (max_lum min_lum : ℝ) : ℝ :=
  if max_lum ≠ min_lum then max_lum - min_lum else 1

/-- `lum_ratio = (orig_lum - min_lum) / lum_range if lum_range > 0 else
0.5`. -/
noncomputable def lumRatioOf (orig_lum min_lum lum_range : ℝ) : ℝ :=
  if lum_range > 0 then (orig_lum - min_lum) / lum_range else 0.5

/-- Python `min` over a list; the empty case is unreachable in the engine
(the batch is checked to be non-empty first). -/
noncomputable def listMin : List ℝ → ℝ
  | [] => 0
  | x :: xs => xs.foldl min x

/-- Python `max` over a list; the empty case is unreachable in the
engine. -/
noncomputable def listMax : List ℝ → ℝ
  | [] => 0
  | x :: xs => xs.foldl max x

/-- `ImageColor.getrgb(target_base)` followed by scaling and
`rgb_to_hls`: step 4 of the engine.  `none` models a raised exception. -/
noncomputable def targetHLSOf (target_base : String) : Option (ℝ × ℝ × ℝ) :=
  (getrgbL target_base.data).bind rgbToHls3

/-- `relative_luminance(ImageColor.getrgb(c))` for one palette entry. -/
noncomputable def lumOf (c : String) : Option ℝ :=
  (getrgbL c.data).bind relLumOf

/-- `rgb_to_hls(*(np.array(ImageColor.getrgb(color)) / 255.0))` for one
palette entry. -/
noncomputable def origHLSOf (c : String) : Option (ℝ × ℝ × ℝ) :=
  (getrgbL c.data).bind rgbToHls3

/-- Sequential evaluation of an effectful comprehension: `none` as soon as
one element raises. -/
def mapOpt {α β : Type _} (f : α → Option β) : List α → Option (List β)
  | [] => some []
  | a :: as =>
    match f a with
    | none => none
    | some b =>
      match mapOpt f as with
      | none => none
      | some bs => some (b :: bs)

/-- The clamping step of the engine:
`np.clip(h, 0, 1)`, `np.clip(l, 0.1, 0.95)`, `np.clip(s, 0.1, 1)`. -/
noncomputable def clampHLS (h l s : ℝ) : ℝ × ℝ × ℝ :=
  (npClip h 0 1, npClip l 0.1 0.95, npClip s 0.1 1)

/-- The tail of the per-item loop body: convert the clamped HLS triple
back to RGB, round each channel, format the hex string and recompute the
luminance of the rounded RGB. -/
noncomputable def emitFromHLS (c : String) (h l s : ℝ) : ColorResult :=
  let (nr, ng, nb) := hls_to_rgb h l s
  let ri := pyRound (nr * 255)
  let gi := pyRound (ng * 255)
  let bi := pyRound (nb * 255)
  { original := c, new_color := ColorUtility.rgb_to_hex ri gi bi,
    luminance := ColorUtility.relative_luminance ri gi bi }

/-- One iteration of the per-item loop of `recolor_palette`. -/
noncomputable def processItem (target_hls : ℝ × ℝ × ℝ) (min_lum lum_range intensity : ℝ)
    (mode : RecolorMode) (c : String) (orig_lum : ℝ) : Option ColorResult :=
  (origHLSOf c).map (fun orig_hls =>
    let lq := lumRatioOf orig_lum min_lum lum_range
    let (new_h, new_l, new_s) :=
      StrategyFactory.get_strategy mode orig_hls target_hls lq intensity
    let (ch, cl, cs) := clampHLS new_h new_l new_s
    emitFromHLS c ch cl cs)

/-- `ColorRecolorService.recolor_palette`.  `none` models an uncaught
exception escaping the call; `some results` is a normal return. -/
noncomputable def ColorRecolorService.recolor_palette (original_colors : List String)
    (target_base : String) (intensity : ℝ) (mode : RecolorMode) :
    Option (List ColorResult) :=
  let valid_colors := validColors original_colors
  if valid_colors = [] then some []
  else
    (targetHLSOf target_base).bind (fun target_hls =>
      (mapOpt lumOf valid_colors).bind (fun luminances =>
        let min_lum := listMin luminances
        let max_lum := listMax luminances
        let lum_range := lumRangeOf max_lum min_lum
        mapOpt
          (fun p => processItem target_hls min_lum lum_range intensity mode p.1 p.2)
          (valid_colors.zip luminances)))

/-! ## Claim-side formulas

For refinement claims that restate a computation in the spec's words, a
second definition follows the claim's wording and is compared with the
definition translated from the source. -/

/-- The per-channel adjustment exactly as the claim words it (C8):
`c/12.92` when `c ≤ 0.04045`, `((c+0.055)/1.055)^2.4` otherwise. -/
noncomputable def claimAdjust (c : ℝ) : ℝ :=
  if c ≤ 0.04045 then c / 12.92 else ((c + 0.055) / 1.055) ^ (2.4 : ℝ)

/-- The luminance formula exactly as the claim words it (C8): scale each
channel to `[0,1]`, adjust, combine with weights 0.2126, 0.7152, 0.0722. -/
noncomputable def claimLuminance (r g b : ℤ) : ℝ :=
  0.2126 * claimAdjust ((r : ℝ) / 255) + 0.7152 * claimAdjust ((g : ℝ) / 255)
    + 0.0722 * claimAdjust ((b : ℝ) / 255)

/-- The FullRecolor output exactly as claim C5 words it: the blend toward
the original by `(1 - intensity)` of hue `targetHue`, branched lightness,
and `targetSat * (0.8 + 0.2 * (1 - L))` with `L` the luminance recomputed
from `originalHLS` converted back to RGB. -/
noncomputable def fullRecolorClaim (original_hls target_hls : ℝ × ℝ × ℝ)
    (lq intensity : ℝ) : ℝ × ℝ × ℝ :=
  let (orig_h, orig_l, orig_s) := original_hls
  let (target_h, _, target_s) := target_hls
  let (rr, rg, rb) := hls_to_rgb orig_h orig_l orig_s
  let lum :=
    ColorUtility.relative_luminance (pyTrunc (rr * 255)) (pyTrunc (rg * 255))
      (pyTrunc (rb * 255))
  let computed_l := if lq > 0.7 then 0.5 + 0.4 * lq else 0.2 + 0.5 * lq
  let computed_s := target_s * (0.8 + 0.2 * (1 - lum))
  (orig_h * (1 - intensity) + target_h * intensity,
   orig_l * (1 - intensity) + computed_l * intensity,
   orig_s * (1 - intensity) + computed_s * intensity)

/-- The normalized-hex shape exactly as claim C3 words it: `#` followed by
exactly six hexadecimal digits. -/
def sixHexShape (s : String) : Bool :=
  match s.data with
  | c0 :: ds => c0 = '#' && ds.length = 6 && ds.all isHexDigit
  | [] => false

/-- The shapes that `getrgb` actually accepts among the strings
`normalize_color` can produce: `#` followed by exactly four, six or eight
hexadecimal digits (four/eight are the RGBA shorthand/full forms of
Pillow >= 7.0; `#` + three digits cannot be produced by
`normalize_color`). -/
def hex468Shape (s : String) : Bool :=
  match s.data with
  | c0 :: ds =>
    c0 = '#' && (ds.length = 4 || ds.length = 6 || ds.length = 8) &&
      ds.all isHexDigit
  | [] => false

/-! ## Helper lemmas: luminance endpoints -/

theorem adjustChannel_zero : adjustChannel 0 = 0 := by
  unfold adjustChannel
  rw [if_pos (by norm_num)]
  norm_num

theorem adjustChannel_one : adjustChannel 1 = 1 := by
  unfold adjustChannel
  rw [if_neg (by norm_num), show ((1 : ℝ) + 0.055) / 1.055 = 1 by norm_num,
    Real.one_rpow]

theorem relative_luminance_black : ColorUtility.relative_luminance 0 0 0 = 0 := by
  unfold ColorUtility.relative_luminance
  norm_num [adjustChannel_zero]

theorem relative_luminance_white :
    ColorUtility.relative_luminance 255 255 255 = 1 := by
  unfold ColorUtility.relative_luminance
  norm_num [adjustChannel_one]

theorem relative_luminance_red :
    ColorUtility.relative_luminance 255 0 0 = 0.2126 := by
  unfold ColorUtility.relative_luminance
  norm_num [adjustChannel_zero, adjustChannel_one]

/-! ## Helper lemmas: evaluating `fract`, `pyRound`, `colorsys` -/

theorem fract_eq_of_bounds (x : ℝ) (n : ℤ) (h1 : (n : ℝ) ≤ x) (h2 : x < n + 1) :
    Int.fract x = x - n := by
  rw [Int.fract, Int.floor_eq_iff.mpr ⟨h1, h2⟩]

theorem pyRound_intCast (n : ℤ) : pyRound (n : ℝ) = n := by
  unfold pyRound
  rw [Int.fract_intCast, if_neg (by norm_num), round_intCast]

theorem pyRound_eq_of_lt_half (x : ℝ) (n : ℤ) (h1 : (n : ℝ) ≤ x)
    (h2 : x < n + 1 / 2) : pyRound x = n := by
  have hfl : ⌊x⌋ = n := Int.floor_eq_iff.mpr ⟨h1, by linarith⟩
  have hfr : Int.fract x ≠ 1 / 2 := by
    rw [Int.fract, hfl]
    intro h
    linarith
  unfold pyRound
  rw [if_neg hfr, round_eq]
  refine Int.floor_eq_iff.mpr ⟨by linarith, by linarith⟩

theorem pyRound_eq_of_gt_half (x : ℝ) (n : ℤ) (h1 : (n : ℝ) + 1 / 2 < x)
    (h2 : x < n + 1) : pyRound x = n + 1 := by
  have hfl : ⌊x⌋ = n := Int.floor_eq_iff.mpr ⟨by linarith, h2⟩
  have hfr : Int.fract x ≠ 1 / 2 := by
    rw [Int.fract, hfl]
    intro h
    linarith
  unfold pyRound
  rw [if_neg hfr, round_eq]
  refine Int.floor_eq_iff.mpr ⟨?_, ?_⟩ <;> push_cast <;> linarith

theorem rgb_to_hls_black : rgb_to_hls 0 0 0 = (0, 0, 0) := by
  unfold rgb_to_hls
  norm_num

theorem rgb_to_hls_red : rgb_to_hls 1 0 0 = (0, 1 / 2, 1) := by
  unfold rgb_to_hls
  rw [show max (1 : ℝ) (max 0 0) = 1 by norm_num [max_def],
    show min (1 : ℝ) (min 0 0) = 0 by norm_num [min_def]]
  norm_num [Int.fract_zero]

theorem rgb_to_hls_blue : rgb_to_hls 0 0 1 = (2 / 3, 1 / 2, 1) := by
  unfold rgb_to_hls
  rw [show max (0 : ℝ) (max 0 1) = 1 by norm_num [max_def],
    show min (0 : ℝ) (min 0 1) = 0 by norm_num [min_def]]
  norm_num

theorem hls_to_rgb_run1 : hls_to_rgb 0 0.2 0.1 = (0.22, 0.18, 0.18) := by
  unfold hls_to_rgb hls_v
  rw [if_neg (by norm_num), if_pos (by norm_num : (0.2 : ℝ) ≤ 0.5)]
  rw [show (0 : ℝ) + 1 / 3 = 1 / 3 by norm_num,
    fract_eq_of_bounds (1 / 3) 0 (by norm_num) (by norm_num),
    fract_eq_of_bounds (0 : ℝ) 0 (by norm_num) (by norm_num),
    show (0 : ℝ) - 1 / 3 = -1 / 3 by norm_num,
    fract_eq_of_bounds (-1 / 3) (-1) (by norm_num) (by norm_num)]
  norm_num

theorem hls_to_rgb_run2 : hls_to_rgb (2 / 3) 0.3 1 = (0, 0, 0.6) := by
  unfold hls_to_rgb hls_v
  rw [if_neg (by norm_num), if_pos (by norm_num : (0.3 : ℝ) ≤ 0.5)]
  rw [show (2 : ℝ) / 3 + 1 / 3 = 1 by norm_num,
    fract_eq_of_bounds (1 : ℝ) 1 (by norm_num) (by norm_num),
    fract_eq_of_bounds (2 / 3 : ℝ) 0 (by norm_num) (by norm_num),
    show (2 : ℝ) / 3 - 1 / 3 = 1 / 3 by norm_num,
    fract_eq_of_bounds (1 / 3 : ℝ) 0 (by norm_num) (by norm_num)]
  norm_num

/-! ## Helper lemmas: two concrete engine runs

`run_black` evaluates `recolor_palette(["#000000"], "#000000", 1.0,
KEEP_HUE)` and `run_mixed` evaluates
`recolor_palette(["#ff0000"], "#0000ff", 1.0, MIXED)`. -/

theorem getrgb_black : getrgbL ("#000000".data) = some [0, 0, 0] := by decide

theorem getrgb_blue : getrgbL ("#0000ff".data) = some [0, 0, 255] := by decide

theorem getrgb_red : getrgbL ("#ff0000".data) = some [255, 0, 0] := by decide

theorem targetHLS_black : targetHLSOf "#000000" = some (0, 0, 0) := by
  unfold targetHLSOf
  rw [getrgb_black]
  show rgbToHls3 [0, 0, 0] = _
  unfold rgbToHls3
  norm_num [rgb_to_hls_black]

theorem targetHLS_blue : targetHLSOf "#0000ff" = some (2 / 3, 1 / 2, 1) := by
  unfold targetHLSOf
  rw [getrgb_blue]
  show rgbToHls3 [0, 0, 255] = _
  unfold rgbToHls3
  norm_num [rgb_to_hls_blue]

theorem origHLS_black : origHLSOf "#000000" = some (0, 0, 0) := by
  unfold origHLSOf
  rw [getrgb_black]
  show rgbToHls3 [0, 0, 0] = _
  unfold rgbToHls3
  norm_num [rgb_to_hls_black]

theorem origHLS_red : origHLSOf "#ff0000" = some (0, 1 / 2, 1) := by
  unfold origHLSOf
  rw [getrgb_red]
  show rgbToHls3 [255, 0, 0] = _
  unfold rgbToHls3
  norm_num [rgb_to_hls_red]

theorem lumOf_black : lumOf "#000000" = some 0 := by
  unfold lumOf
  rw [getrgb_black]
  show relLumOf [0, 0, 0] = _
  unfold relLumOf
  norm_num [relative_luminance_black]

theorem lumOf_red : lumOf "#ff0000" = some 0.2126 := by
  unfold lumOf
  rw [getrgb_red]
  show relLumOf [255, 0, 0] = _
  unfold relLumOf
  norm_num [relative_luminance_red]

theorem keephue_eval :
    StrategyFactory.get_strategy RecolorMode.KEEP_HUE (0, 0, 0) (0, 0, 0) 0 1 =
      (0, 0.2, 0) := by
  show KeepHueStrategy.recolor (0, 0, 0) (0, 0, 0) 0 1 = (0, 0.2, 0)
  unfold KeepHueStrategy.recolor
  norm_num

theorem mixed_eval :
    StrategyFactory.get_strategy RecolorMode.MIXED (0, 1 / 2, 1) (2 / 3, 1 / 2, 1) 0 1 =
      (2 / 3, 0.3, 1) := by
  show MixedStrategy.recolor (0, 1 / 2, 1) (2 / 3, 1 / 2, 1) 0 1 = (2 / 3, 0.3, 1)
  unfold MixedStrategy.recolor
  norm_num

theorem clamp_eval1 : clampHLS 0 0.2 0 = (0, 0.2, 0.1) := by
  unfold clampHLS npClip
  norm_num [max_def, min_def]

theorem clamp_eval2 : clampHLS (2 / 3) 0.3 1 = (2 / 3, 0.3, 1) := by
  unfold clampHLS npClip
  norm_num [max_def, min_def]

theorem emit_black :
    emitFromHLS "#000000" 0 0.2 0.1 =
      ⟨"#000000", "#382e2e", ColorUtility.relative_luminance 56 46 46⟩ := by
  unfold emitFromHLS
  rw [hls_to_rgb_run1]
  have h1 : pyRound ((0.22 : ℝ) * 255) = 56 :=
    pyRound_eq_of_lt_half _ 56 (by norm_num) (by norm_num)
  have h2 : pyRound ((0.18 : ℝ) * 255) = 46 := by
    have h := pyRound_eq_of_gt_half ((0.18 : ℝ) * 255) 45 (by norm_num) (by norm_num)
    rw [h]
    rfl
  have h3 : ColorUtility.rgb_to_hex 56 46 46 = "#382e2e" := by decide
  show ColorResult.mk "#000000"
      (ColorUtility.rgb_to_hex (pyRound (0.22 * 255)) (pyRound (0.18 * 255))
        (pyRound (0.18 * 255)))
      (ColorUtility.relative_luminance (pyRound (0.22 * 255)) (pyRound (0.18 * 255))
        (pyRound (0.18 * 255))) = _
  rw [h1, h2, h3]

theorem emit_mixed :
    emitFromHLS "#ff0000" (2 / 3) 0.3 1 =
      ⟨"#ff0000", "#000099", ColorUtility.relative_luminance 0 0 153⟩ := by
  unfold emitFromHLS
  rw [hls_to_rgb_run2]
  have h1 : pyRound ((0 : ℝ) * 255) = 0 := by
    rw [show ((0 : ℝ) * 255) = ((0 : ℤ) : ℝ) by norm_num]
    exact pyRound_intCast 0
  have h2 : pyRound ((0.6 : ℝ) * 255) = 153 := by
    rw [show ((0.6 : ℝ) * 255) = ((153 : ℤ) : ℝ) by norm_num]
    exact pyRound_intCast 153
  have h3 : ColorUtility.rgb_to_hex 0 0 153 = "#000099" := by decide
  show ColorResult.mk "#ff0000"
      (ColorUtility.rgb_to_hex (pyRound (0 * 255)) (pyRound (0 * 255))
        (pyRound (0.6 * 255)))
      (ColorUtility.relative_luminance (pyRound (0 * 255)) (pyRound (0 * 255))
        (pyRound (0.6 * 255))) = _
  rw [h1, h2, h3]

theorem item_black :
    processItem (0, 0, 0) 0 1 1 RecolorMode.KEEP_HUE "#000000" 0 =
      some ⟨"#000000", "#382e2e", ColorUtility.relative_luminance 56 46 46⟩ := by
  unfold processItem
  rw [origHLS_black, Option.map_some']
  simp only [show lumRatioOf 0 0 1 = 0 by norm_num [lumRatioOf], keephue_eval,
    clamp_eval1, emit_black]

theorem item_mixed :
    processItem (2 / 3, 1 / 2, 1) 0.2126 1 1 RecolorMode.MIXED "#ff0000" 0.2126 =
      some ⟨"#ff0000", "#000099", ColorUtility.relative_luminance 0 0 153⟩ := by
  unfold processItem
  rw [origHLS_red, Option.map_some']
  simp only [show lumRatioOf 0.2126 0.2126 1 = 0 by norm_num [lumRatioOf], mixed_eval,
    clamp_eval2, emit_mixed]

theorem run_black :
    ColorRecolorService.recolor_palette ["#000000"] "#000000" 1 RecolorMode.KEEP_HUE =
      some [⟨"#000000", "#382e2e", ColorUtility.relative_luminance 56 46 46⟩] := by
  have hvalid : validColors ["#000000"] = ["#000000"] := by decide
  unfold ColorRecolorService.recolor_palette
  rw [hvalid]
  rw [if_neg (by decide : ¬ (["#000000"] : List String) = [])]
  rw [targetHLS_black, Option.some_bind]
  have hmap : mapOpt lumOf ["#000000"] = some [0] := by
    simp [mapOpt, lumOf_black]
  rw [hmap, Option.some_bind]
  simp only [listMin, listMax, List.foldl]
  rw [show lumRangeOf 0 0 = 1 by simp [lumRangeOf]]
  show mapOpt _ [("#000000", (0 : ℝ))] = _
  simp only [mapOpt, item_black]

theorem run_mixed :
    ColorRecolorService.recolor_palette ["#ff0000"] "#0000ff" 1 RecolorMode.MIXED =
      some [⟨"#ff0000", "#000099", ColorUtility.relative_luminance 0 0 153⟩] := by
  have hvalid : validColors ["#ff0000"] = ["#ff0000"] := by decide
  unfold ColorRecolorService.recolor_palette
  rw [hvalid]
  rw [if_neg (by decide : ¬ (["#ff0000"] : List String) = [])]
  rw [targetHLS_blue, Option.some_bind]
  have hmap : mapOpt lumOf ["#ff0000"] = some [0.2126] := by
    simp [mapOpt, lumOf_red]
  rw [hmap, Option.some_bind]
  simp only [listMin, listMax, List.foldl]
  rw [show lumRangeOf 0.2126 0.2126 = 1 by simp [lumRangeOf]]
  show mapOpt _ [("#ff0000", (0.2126 : ℝ))] = _
  simp only [mapOpt, item_mixed]

/-- Claim C8: `relative_luminance` scales each channel to `[0,1]`, applies
the two-branch gamma adjustment, combines the channels with the weights
0.2126 / 0.7152 / 0.0722, and maps white to 1 and black to 0 exactly. -/
theorem C8_relative_luminance_formula :
    (∀ r g b : ℤ,
        ColorUtility.relative_luminance r g b = claimLuminance r g b) ∧
      ColorUtility.relative_luminance 255 255 255 = 1 ∧
      ColorUtility.relative_luminance 0 0 0 = 0 := by
  refine ⟨fun r g b => rfl, relative_luminance_white, relative_luminance_black⟩

/-- Claim C10: none of the three strategies reads the lightness component
of the target HLS triple, so two targets agreeing on hue and saturation
produce identical outputs in every mode. -/
theorem C10_strategies_ignore_target_lightness :
    ∀ (mode : RecolorMode) (original_hls : ℝ × ℝ × ℝ)
      (target_h target_l target_l' target_s lq intensity : ℝ),
      StrategyFactory.get_strategy mode original_hls (target_h, target_l, target_s)
          lq intensity =
        StrategyFactory.get_strategy mode original_hls
          (target_h, target_l', target_s) lq intensity := by
  intro mode o th tl tl' ts lq i
  cases mode <;> rfl

/-- Claim C5: for `intensity ∈ [0, 1]` the FullRecolor strategy equals the
claim's formula: the blend toward the original by `(1 - intensity)` of
(targetHue, ratio-branched lightness, `targetSat * (0.8 + 0.2 * (1 - L))`)
with `L` recomputed from the original HLS converted back to RGB. -/
theorem C5_full_recolor_formula :
    ∀ (original_hls target_hls : ℝ × ℝ × ℝ) (lq intensity : ℝ),
      0 ≤ intensity → intensity ≤ 1 →
      FullRecolorStrategy.recolor original_hls target_hls lq intensity =
        fullRecolorClaim original_hls target_hls lq intensity := by
  intro o t lq i _ hi1
  obtain ⟨oh, ol, os⟩ := o
  obtain ⟨th, tl, ts⟩ := t
  unfold FullRecolorStrategy.recolor fullRecolorClaim
  by_cases hlt : i < 1
  · simp only [if_pos hlt]
  · have : i = 1 := le_antisymm hi1 (not_lt.mp hlt)
    subst this
    simp only [if_neg hlt]
    refine Prod.ext (by ring) (Prod.ext (by ring) (by ring))

/-- Witness for C5 at a concrete intensity in `[0, 1]`. -/
theorem C5_full_recolor_formula_witness :
    (0 : ℝ) ≤ 1 / 2 ∧ (1 / 2 : ℝ) ≤ 1 ∧
      FullRecolorStrategy.recolor (0, 0, 0) (0, 0, 0) 0 (1 / 2) =
        fullRecolorClaim (0, 0, 0) (0, 0, 0) 0 (1 / 2) :=
  ⟨by norm_num, by norm_num,
    C5_full_recolor_formula (0, 0, 0) (0, 0, 0) 0 (1 / 2) (by norm_num) (by norm_num)⟩

/-- Claim C1 (evidence of the divergence): in the source, `lum_range` is
replaced by `1.0` whenever `max_lum == min_lum`, so the `else 0.5` branch
of the ratio is unreachable and every entry of an equal-luminance batch
gets ratio `(lum - min_lum) / 1.0 = 0`, not `0.5`; consequently
`recolor(["#ff0000"], "#0000ff", 1.0, blend)` emits `#000099`
(the ratio-0 blend), not the hand-computed ratio-0.5 blend `#3333ff`. -/
theorem C1_equal_luminance_batch_gets_ratio_zero :
    (∀ L : ℝ, lumRatioOf L L (lumRangeOf L L) = 0) ∧
      ColorRecolorService.recolor_palette ["#ff0000"] "#0000ff" 1 RecolorMode.MIXED =
        some [⟨"#ff0000", "#000099", ColorUtility.relative_luminance 0 0 153⟩] := by
  refine ⟨fun L => ?_, run_mixed⟩
  rw [show lumRangeOf L L = 1 by simp [lumRangeOf]]
  norm_num [lumRatioOf]

/-! ## Structural lemmas about the engine -/

theorem npClip_mem (x lo hi : ℝ) (h : lo ≤ hi) :
    lo ≤ npClip x lo hi ∧ npClip x lo hi ≤ hi :=
  ⟨le_min (le_max_right x lo) h, min_le_right _ _⟩

theorem mapOpt_some_mem {α β : Type _} (f : α → Option β) (l : List α) (m : List β)
    (hm : mapOpt f l = some m) : ∀ b ∈ m, ∃ a ∈ l, f a = some b := by
  induction l generalizing m with
  | nil =>
    unfold mapOpt at hm
    obtain rfl := Option.some.inj hm
    intro b hb
    exact absurd hb (List.not_mem_nil b)
  | cons a as ih =>
    unfold mapOpt at hm
    cases hfa : f a with
    | none => rw [hfa] at hm; exact absurd hm (by simp)
    | some b0 =>
      rw [hfa] at hm
      cases hrest : mapOpt f as with
      | none => rw [hrest] at hm; exact absurd hm (by simp)
      | some bs =>
        rw [hrest] at hm
        obtain rfl := Option.some.inj hm
        intro b hb
        rcases List.mem_cons.mp hb with rfl | hb
        · exact ⟨a, List.mem_cons_self a as, hfa⟩
        · obtain ⟨a', ha', hfa'⟩ := ih bs hrest b hb
          exact ⟨a', List.mem_cons_of_mem a ha', hfa'⟩

theorem mapOpt_some_length {α β : Type _} (f : α → Option β) (l : List α)
    (m : List β) (hm : mapOpt f l = some m) : m.length = l.length := by
  induction l generalizing m with
  | nil =>
    unfold mapOpt at hm
    obtain rfl := Option.some.inj hm
    rfl
  | cons a as ih =>
    unfold mapOpt at hm
    cases hfa : f a with
    | none => rw [hfa] at hm; exact absurd hm (by simp)
    | some b0 =>
      rw [hfa] at hm
      cases hrest : mapOpt f as with
      | none => rw [hrest] at hm; exact absurd hm (by simp)
      | some bs =>
        rw [hrest] at hm
        obtain rfl := Option.some.inj hm
        simp [ih bs hrest]

theorem mapOpt_isSome_iff {α β : Type _} (f : α → Option β) (l : List α) :
    (mapOpt f l).isSome ↔ ∀ a ∈ l, (f a).isSome := by
  induction l with
  | nil => simp [mapOpt]
  | cons a as ih =>
    unfold mapOpt
    cases hfa : f a with
    | none => simp [hfa]
    | some b0 =>
      cases hrest : mapOpt f as with
      | none =>
        rw [hrest] at ih
        simp only [Option.isSome_none, Bool.false_eq_true, false_iff, not_forall] at ih
        simp only [Option.isSome_none, Bool.false_eq_true, false_iff, not_forall]
        obtain ⟨a', ha', hna'⟩ := ih
        exact ⟨a', List.mem_cons_of_mem a ha', hna'⟩
      | some bs =>
        rw [hrest] at ih
        simp only [Option.isSome_some, true_iff] at ih
        simp only [Option.isSome_some, true_iff]
        intro x hx
        rcases List.mem_cons.mp hx with rfl | hx
        · rw [hfa]; rfl
        · exact ih x hx

/-- Every successfully processed item is the emission of its own input
string from a triple produced by `clampHLS`. -/
theorem processItem_emits (target_hls : ℝ × ℝ × ℝ) (min_lum lum_range intensity : ℝ)
    (mode : RecolorMode) (c : String) (orig_lum : ℝ) (r : ColorResult)
    (h : processItem target_hls min_lum lum_range intensity mode c orig_lum = some r) :
    ∃ hh ll ss,
      (0 ≤ hh ∧ hh ≤ 1 ∧ 0.1 ≤ ll ∧ ll ≤ 0.95 ∧ 0.1 ≤ ss ∧ ss ≤ 1) ∧
        r = emitFromHLS c hh ll ss := by
  unfold processItem at h
  cases ho : origHLSOf c with
  | none => rw [ho] at h; exact absurd h (by simp)
  | some o =>
    rw [ho, Option.map_some'] at h
    have hr := Option.some.inj h
    set S := StrategyFactory.get_strategy mode o target_hls
      (lumRatioOf orig_lum min_lum lum_range) intensity with hS
    refine ⟨npClip S.1 0 1, npClip S.2.1 0.1 0.95, npClip S.2.2 0.1 1,
      ⟨(npClip_mem S.1 0 1 (by norm_num)).1, (npClip_mem S.1 0 1 (by norm_num)).2,
        (npClip_mem S.2.1 0.1 0.95 (by norm_num)).1,
        (npClip_mem S.2.1 0.1 0.95 (by norm_num)).2,
        (npClip_mem S.2.2 0.1 1 (by norm_num)).1,
        (npClip_mem S.2.2 0.1 1 (by norm_num)).2⟩, ?_⟩
    rw [← hr]
    rfl

/-- Every result of a normal `recolor_palette` return is the emission of a
clamped HLS triple: hue in `[0,1]`, lightness in `[0.1,0.95]`, saturation
in `[0.1,1]`. -/
theorem recolor_emits (colors : List String) (target : String) (intensity : ℝ)
    (mode : RecolorMode) (out : List ColorResult)
    (hout : ColorRecolorService.recolor_palette colors target intensity mode = some out) :
    ∀ r ∈ out,
      ∃ hh ll ss,
        (0 ≤ hh ∧ hh ≤ 1 ∧ 0.1 ≤ ll ∧ ll ≤ 0.95 ∧ 0.1 ≤ ss ∧ ss ≤ 1) ∧
          r = emitFromHLS r.original hh ll ss := by
  intro r hr
  unfold ColorRecolorService.recolor_palette at hout
  by_cases hv : validColors colors = []
  · rw [hv] at hout
    simp only [if_pos rfl] at hout
    obtain rfl := Option.some.inj hout
    exact absurd hr (List.not_mem_nil r)
  · rw [if_neg hv] at hout
    cases ht : targetHLSOf target with
    | none => rw [ht] at hout; exact absurd hout (by simp)
    | some thls =>
      rw [ht, Option.some_bind] at hout
      cases hl : mapOpt lumOf (validColors colors) with
      | none => rw [hl] at hout; exact absurd hout (by simp)
      | some lums =>
        rw [hl, Option.some_bind] at hout
        obtain ⟨p, _, hpr⟩ := mapOpt_some_mem _ _ _ hout r hr
        obtain ⟨hh, ll, ss, hb, hre⟩ := processItem_emits _ _ _ _ _ _ _ _ hpr
        have horig : r.original = p.1 := by rw [hre]; rfl
        exact ⟨hh, ll, ss, hb, by rw [horig]; exact hre⟩

/-- Claim C7: every emitted result of a normal return is produced from a
clamped HLS triple with hue in `[0,1]`, lightness in `[0.1,0.95]` and
saturation in `[0.1,1]`. -/
theorem C7_results_come_from_clamped_triples :
    ∀ (colors : List String) (target : String) (intensity : ℝ) (mode : RecolorMode)
      (out : List ColorResult),
      ColorRecolorService.recolor_palette colors target intensity mode = some out →
      ∀ r ∈ out,
        ∃ hh ll ss,
          (0 ≤ hh ∧ hh ≤ 1 ∧ 0.1 ≤ ll ∧ ll ≤ 0.95 ∧ 0.1 ≤ ss ∧ ss ≤ 1) ∧
            r = emitFromHLS r.original hh ll ss :=
  fun colors target intensity mode out hout =>
    recolor_emits colors target intensity mode out hout

/-- Witness for C7: the run of `recolor_palette(["#000000"], "#000000",
1.0, KEEP_HUE)` emits its single result from a clamped triple. -/
theorem C7_results_come_from_clamped_triples_witness :
    ∃ hh ll ss,
      ((0 : ℝ) ≤ hh ∧ hh ≤ 1 ∧ 0.1 ≤ ll ∧ ll ≤ 0.95 ∧ 0.1 ≤ ss ∧ ss ≤ 1) ∧
        (⟨"#000000", "#382e2e", ColorUtility.relative_luminance 56 46 46⟩ : ColorResult) =
          emitFromHLS "#000000" hh ll ss :=
  C7_results_come_from_clamped_triples ["#000000"] "#000000" 1 RecolorMode.KEEP_HUE
    _ run_black _ (List.mem_singleton_self _)

/-! ## Range of `hls_to_rgb`, `pyRound` and the hex formatter -/

theorem hls_v_mem (m1 m2 t : ℝ) (h01 : 0 ≤ m1) (h12 : m1 ≤ m2) (h21 : m2 ≤ 1) :
    0 ≤ hls_v m1 m2 t ∧ hls_v m1 m2 t ≤ 1 := by
  unfold hls_v
  have hu0 : 0 ≤ Int.fract t := Int.fract_nonneg t
  have hu1 : Int.fract t < 1 := Int.fract_lt_one t
  have hd : 0 ≤ m2 - m1 := sub_nonneg.mpr h12
  split_ifs with h1 h2 h3
  · constructor
    · nlinarith [mul_nonneg hd hu0]
    · nlinarith [mul_nonneg hd hu0]
  · exact ⟨le_trans h01 h12, h21⟩
  · constructor
    · nlinarith [mul_nonneg hd (by linarith : (0 : ℝ) ≤ 2 / 3 - Int.fract t)]
    · nlinarith [mul_nonneg hd (by linarith : (0 : ℝ) ≤ Int.fract t - 1 / 2)]
  · exact ⟨h01, le_trans h12 h21⟩

theorem hls_to_rgb_mem (h l s : ℝ) (hl0 : 0 ≤ l) (hl1 : l ≤ 1) (hs0 : 0 ≤ s)
    (hs1 : s ≤ 1) :
    (0 ≤ (hls_to_rgb h l s).1 ∧ (hls_to_rgb h l s).1 ≤ 1) ∧
      (0 ≤ (hls_to_rgb h l s).2.1 ∧ (hls_to_rgb h l s).2.1 ≤ 1) ∧
      (0 ≤ (hls_to_rgb h l s).2.2 ∧ (hls_to_rgb h l s).2.2 ≤ 1) := by
  unfold hls_to_rgb
  split_ifs with hs hl
  · exact ⟨⟨hl0, hl1⟩, ⟨hl0, hl1⟩, ⟨hl0, hl1⟩⟩
  · have hm1 : 0 ≤ 2 * l - l * (1 + s) := by nlinarith
    have hm12 : 2 * l - l * (1 + s) ≤ l * (1 + s) := by nlinarith
    have hm2 : l * (1 + s) ≤ 1 := by nlinarith
    exact ⟨hls_v_mem _ _ _ hm1 hm12 hm2, hls_v_mem _ _ _ hm1 hm12 hm2,
      hls_v_mem _ _ _ hm1 hm12 hm2⟩
  · have hl2 : 0.5 < l := not_le.mp hl
    have hm1 : 0 ≤ 2 * l - (l + s - l * s) := by nlinarith
    have hm12 : 2 * l - (l + s - l * s) ≤ l + s - l * s := by nlinarith
    have hm2 : l + s - l * s ≤ 1 := by nlinarith
    exact ⟨hls_v_mem _ _ _ hm1 hm12 hm2, hls_v_mem _ _ _ hm1 hm12 hm2,
      hls_v_mem _ _ _ hm1 hm12 hm2⟩

theorem pyRound_mem (x : ℝ) (h0 : 0 ≤ x) (h1 : x ≤ 255) :
    0 ≤ pyRound x ∧ pyRound x ≤ 255 := by
  have hfl0 : (0 : ℤ) ≤ ⌊x⌋ := Int.floor_nonneg.mpr h0
  have hfl255 : ⌊x⌋ ≤ 255 := by
    have h := Int.floor_le_floor (α := ℝ) h1
    rwa [show ((255 : ℝ)) = ((255 : ℤ) : ℝ) by norm_num, Int.floor_intCast] at h
  unfold pyRound
  split_ifs with hf he
  · exact ⟨hfl0, hfl255⟩
  · constructor
    · omega
    · have hx : (⌊x⌋ : ℝ) = x - 1 / 2 := by
        have := hf
        rw [Int.fract] at this
        linarith
      have : (⌊x⌋ : ℝ) ≤ 254.5 := by linarith
      have hlt : ⌊x⌋ < 255 := by
        by_contra hcon
        push_neg at hcon
        have : ((255 : ℤ) : ℝ) ≤ (⌊x⌋ : ℝ) := by exact_mod_cast hcon
        norm_num at this
        linarith
      omega
  · rw [round_eq]
    constructor
    · exact Int.floor_nonneg.mpr (by linarith)
    · have h2 : x + 1 / 2 ≤ 255.5 := by linarith
      have h3 : ⌊x + 1 / 2⌋ ≤ ⌊(255.5 : ℝ)⌋ := Int.floor_le_floor h2
      rwa [show ⌊(255.5 : ℝ)⌋ = 255 from Int.floor_eq_iff.mpr (by norm_num)] at h3

theorem digitChar_isHexDigit (d : ℕ) (hd : d < 16) :
    isHexDigit (Nat.digitChar d) = true := by
  interval_cases d <;> decide

theorem natHex_lt16 (m : ℕ) (h : m < 16) : natHex m = [Nat.digitChar m] := by
  unfold natHex natHexAux
  rw [if_pos h]

theorem natHexAux_succ (fuel n : ℕ) (acc : List Char) :
    natHexAux (fuel + 1) n acc =
      if n < 16 then Nat.digitChar n :: acc
      else natHexAux fuel (n / 16) (Nat.digitChar (n % 16) :: acc) := rfl

theorem natHex_ge16 (m : ℕ) (h16 : 16 ≤ m) (h256 : m < 256) :
    natHex m = [Nat.digitChar (m / 16), Nat.digitChar (m % 16)] := by
  unfold natHex
  rw [natHexAux_succ, if_neg (by omega)]
  obtain ⟨j, hj⟩ : ∃ j, m = j + 1 := ⟨m - 1, by omega⟩
  rw [hj, natHexAux_succ, if_pos (by omega)]

theorem format02x_shape (n : ℤ) (h0 : 0 ≤ n) (h1 : n ≤ 255) :
    (format02x n).length = 2 ∧ (format02x n).all isHexDigit = true := by
  unfold format02x
  rw [if_neg (by omega)]
  have hna : n.natAbs < 256 := by omega
  by_cases h16 : n.natAbs < 16
  · rw [natHex_lt16 _ h16]
    refine ⟨rfl, ?_⟩
    show List.all ['0', Nat.digitChar n.natAbs] isHexDigit = true
    simp [digitChar_isHexDigit _ h16, show isHexDigit '0' = true from rfl]
  · rw [natHex_ge16 _ (by omega) hna]
    have hd1 : n.natAbs / 16 < 16 := by omega
    have hd2 : n.natAbs % 16 < 16 := by omega
    refine ⟨rfl, ?_⟩
    show List.all [Nat.digitChar (n.natAbs / 16), Nat.digitChar (n.natAbs % 16)]
      isHexDigit = true
    simp [digitChar_isHexDigit _ hd1, digitChar_isHexDigit _ hd2]

theorem rgb_to_hex_shape (r g b : ℤ) (hr0 : 0 ≤ r) (hr1 : r ≤ 255) (hg0 : 0 ≤ g)
    (hg1 : g ≤ 255) (hb0 : 0 ≤ b) (hb1 : b ≤ 255) :
    sixHexShape (ColorUtility.rgb_to_hex r g b) = true := by
  unfold sixHexShape ColorUtility.rgb_to_hex
  show (match '#' :: (format02x r ++ format02x g ++ format02x b) with
    | '#' :: ds => (ds.length = 6 : Bool) && ds.all isHexDigit
    | _ => false) = true
  obtain ⟨hlr, har⟩ := format02x_shape r hr0 hr1
  obtain ⟨hlg, hag⟩ := format02x_shape g hg0 hg1
  obtain ⟨hlb, hab⟩ := format02x_shape b hb0 hb1
  simp [List.length_append, hlr, hlg, hlb, List.all_append, har, hag, hab]

/-- The emission of any clamped triple is a lowercase 7-character
`#rrggbb` string. -/
theorem emitFromHLS_shape (c : String) (hh ll ss : ℝ) (hl0 : 0.1 ≤ ll)
    (hl1 : ll ≤ 0.95) (hs0 : 0.1 ≤ ss) (hs1 : ss ≤ 1) :
    sixHexShape (emitFromHLS c hh ll ss).new_color = true := by
  obtain ⟨⟨hr0, hr1⟩, ⟨hg0, hg1⟩, ⟨hb0, hb1⟩⟩ :=
    hls_to_rgb_mem hh ll ss (by linarith) (by linarith) (by linarith) (by linarith)
  have hrr := pyRound_mem ((hls_to_rgb hh ll ss).1 * 255) (by nlinarith) (by nlinarith)
  have hgg := pyRound_mem ((hls_to_rgb hh ll ss).2.1 * 255) (by nlinarith) (by nlinarith)
  have hbb := pyRound_mem ((hls_to_rgb hh ll ss).2.2 * 255) (by nlinarith) (by nlinarith)
  show sixHexShape (ColorUtility.rgb_to_hex (pyRound ((hls_to_rgb hh ll ss).1 * 255))
    (pyRound ((hls_to_rgb hh ll ss).2.1 * 255))
    (pyRound ((hls_to_rgb hh ll ss).2.2 * 255))) = true
  exact rgb_to_hex_shape _ _ _ hrr.1 hrr.2 hgg.1 hgg.2 hbb.1 hbb.2

/-- Claim C9: every emitted `new_color` of a normal return is a lowercase
7-character `#rrggbb` string whose three hex pairs are 8-bit values. -/
theorem C9_outputs_are_normalized_hex :
    ∀ (colors : List String) (target : String) (intensity : ℝ) (mode : RecolorMode)
      (out : List ColorResult),
      ColorRecolorService.recolor_palette colors target intensity mode = some out →
      ∀ r ∈ out, sixHexShape r.new_color = true := by
  intro colors target intensity mode out hout r hr
  obtain ⟨hh, ll, ss, ⟨_, _, hl0, hl1, hs0, hs1⟩, hre⟩ :=
    recolor_emits colors target intensity mode out hout r hr
  rw [hre]
  exact emitFromHLS_shape _ hh ll ss hl0 hl1 hs0 hs1

/-- Witness for C9: the run of `recolor_palette(["#000000"], "#000000",
1.0, KEEP_HUE)` emits `#382e2e`, a normalized hex string. -/
theorem C9_outputs_are_normalized_hex_witness :
    sixHexShape
      (ColorResult.new_color
        ⟨"#000000", "#382e2e", ColorUtility.relative_luminance 56 46 46⟩) = true :=
  C9_outputs_are_normalized_hex ["#000000"] "#000000" 1 RecolorMode.KEEP_HUE
    _ run_black _ (List.mem_singleton_self _)

/-! ## Failure characterization of the engine -/

theorem relLum_rgbToHls3_isSome (rgb : List ℤ) :
    (relLumOf rgb).isSome ↔ (rgbToHls3 rgb).isSome := by
  rcases rgb with _ | ⟨a, _ | ⟨b, _ | ⟨c, _ | ⟨d, rest⟩⟩⟩⟩ <;>
    simp [relLumOf, rgbToHls3]

theorem lumOf_origHLS_isSome (c : String) :
    (lumOf c).isSome ↔ (origHLSOf c).isSome := by
  unfold lumOf origHLSOf
  cases hg : getrgbL c.data with
  | none => simp
  | some rgb => simpa using relLum_rgbToHls3_isSome rgb

theorem processItem_isSome (target_hls : ℝ × ℝ × ℝ) (min_lum lum_range intensity : ℝ)
    (mode : RecolorMode) (c : String) (orig_lum : ℝ) :
    (processItem target_hls min_lum lum_range intensity mode c orig_lum).isSome ↔
      (origHLSOf c).isSome := by
  unfold processItem
  cases origHLSOf c <;> simp

/-- The functional notations are reachable through the raw `target_base`:
`recolor(["#ff0000"], "rgb(52, 152, 219)", 1.0, keep_hue)` parses the
target through the `rgb(...)` path and returns normally. -/
theorem run_functional_target :
    (ColorRecolorService.recolor_palette ["#ff0000"] "rgb(52, 152, 219)" 1
        RecolorMode.KEEP_HUE).isSome = true := by
  unfold ColorRecolorService.recolor_palette
  rw [show validColors ["#ff0000"] = ["#ff0000"] from by decide]
  rw [if_neg (by decide : ¬ (["#ff0000"] : List String) = [])]
  have ht : targetHLSOf "rgb(52, 152, 219)" =
      some (rgb_to_hls (((52 : ℤ) : ℝ) / 255) (((152 : ℤ) : ℝ) / 255)
        (((219 : ℤ) : ℝ) / 255)) := by
    unfold targetHLSOf
    rw [show getrgbL ("rgb(52, 152, 219)".data) = some [52, 152, 219] from by decide]
    rfl
  rw [ht, Option.some_bind]
  have hmap : mapOpt lumOf ["#ff0000"] = some [0.2126] := by
    simp [mapOpt, lumOf_red]
  rw [hmap, Option.some_bind]
  show (mapOpt _ (["#ff0000"].zip [(0.2126 : ℝ)])).isSome = true
  rw [mapOpt_isSome_iff]
  intro p hp
  have hp' : p = ("#ff0000", (0.2126 : ℝ)) := by simpa using hp
  subst hp'
  rw [processItem_isSome, ← lumOf_origHLS_isSome]
  show (lumOf "#ff0000").isSome = true
  rw [lumOf_red]
  rfl

/-- Claim C2 (amended): the call fails iff at least one palette entry
passes `is_valid_color` and either the raw `target_base` or one of the
surviving entries fails to produce a luminance-compatible RGB 3-tuple;
entry filtering happens before `target_base` is examined. -/
theorem C2_failure_iff_survivors_and_bad_parse :
    ∀ (colors : List String) (target : String) (intensity : ℝ) (mode : RecolorMode),
      ColorRecolorService.recolor_palette colors target intensity mode = none ↔
        (validColors colors ≠ [] ∧
          (targetHLSOf target = none ∨ ∃ c ∈ validColors colors, lumOf c = none)) := by
  intro colors target intensity mode
  unfold ColorRecolorService.recolor_palette
  by_cases hv : validColors colors = []
  · rw [hv]
    simp
  · rw [if_neg hv]
    simp only [ne_eq, hv, not_false_iff, true_and]
    cases ht : targetHLSOf target with
    | none => simp
    | some thls =>
      simp only [Option.some_bind]
      cases hl : mapOpt lumOf (validColors colors) with
      | none =>
        simp only [Option.none_bind]
        have : ∃ c ∈ validColors colors, lumOf c = none := by
          have hnot : ¬ (mapOpt lumOf (validColors colors)).isSome := by
            rw [hl]
            simp
          rw [mapOpt_isSome_iff] at hnot
          push_neg at hnot
          obtain ⟨c, hc, hcn⟩ := hnot
          exact ⟨c, hc, Option.not_isSome_iff_eq_none.mp hcn⟩
        simp [this]
      | some lums =>
        simp only [Option.some_bind]
        have hall : ∀ c ∈ validColors colors, (lumOf c).isSome := by
          rw [← mapOpt_isSome_iff, hl]
          simp
        have hfinal :
            (mapOpt
              (fun p => processItem thls (listMin lums)
                (lumRangeOf (listMax lums) (listMin lums)) intensity mode p.1 p.2)
              ((validColors colors).zip lums)).isSome := by
          rw [mapOpt_isSome_iff]
          intro p hp
          rw [processItem_isSome, ← lumOf_origHLS_isSome]
          exact hall p.1 (List.of_mem_zip hp).1
        constructor
        · intro h
          rw [h] at hfinal
          simp at hfinal
        · rintro (hno | ⟨c, hc, hnone⟩)
          · exact absurd hno (by simp)
          · have := hall c hc
            rw [hnone] at this
            simp at this

/-- Counterexample to claim C2 as stated: `is_valid("0000ff")` holds (it
normalizes to `#0000ff`), yet
`recolor(["#ff0000"], "0000ff", 1.0, keep_hue)` fails, because the engine
hands the raw `target_base` to `getrgb`, which rejects bare six-digit
hex. -/
theorem C2_counterexample_valid_target_still_fails :
    ColorUtility.is_valid_color "0000ff" = true ∧
      ColorRecolorService.recolor_palette ["#ff0000"] "0000ff" 1
          RecolorMode.KEEP_HUE = none := by
  constructor
  · decide
  · unfold ColorRecolorService.recolor_palette
    rw [show validColors ["#ff0000"] = ["#ff0000"] from by decide]
    rw [if_neg (by decide : ¬ (["#ff0000"] : List String) = [])]
    rw [show targetHLSOf "0000ff" = none from by
      unfold targetHLSOf
      rw [show getrgbL ("0000ff".data) = none from by decide]
      rfl]
    rfl

/-! ## Originals of the emitted results -/

theorem processItem_original (target_hls : ℝ × ℝ × ℝ)
    (min_lum lum_range intensity : ℝ) (mode : RecolorMode) (c : String)
    (orig_lum : ℝ) (r : ColorResult)
    (h : processItem target_hls min_lum lum_range intensity mode c orig_lum = some r) :
    r.original = c := by
  obtain ⟨hh, ll, ss, _, hre⟩ := processItem_emits _ _ _ _ _ _ _ _ h
  rw [hre]
  rfl

theorem mapOpt_processItem_originals (target_hls : ℝ × ℝ × ℝ)
    (min_lum lum_range intensity : ℝ) (mode : RecolorMode) :
    ∀ (cs : List String) (ls : List ℝ) (out : List ColorResult),
      ls.length = cs.length →
      mapOpt (fun p => processItem target_hls min_lum lum_range intensity mode p.1 p.2)
          (cs.zip ls) = some out →
      out.map ColorResult.original = cs := by
  intro cs
  induction cs with
  | nil =>
    intro ls out _ hm
    unfold mapOpt at hm
    obtain rfl := Option.some.inj hm
    rfl
  | cons c cs' ih =>
    intro ls out hlen hm
    cases ls with
    | nil => simp at hlen
    | cons l ls' =>
      simp only [List.zip_cons_cons] at hm
      unfold mapOpt at hm
      cases hpc : processItem target_hls min_lum lum_range intensity mode c l with
      | none => rw [hpc] at hm; exact absurd hm (by simp)
      | some r =>
        rw [hpc] at hm
        cases hrest : mapOpt
            (fun p => processItem target_hls min_lum lum_range intensity mode p.1 p.2)
            (cs'.zip ls') with
        | none => rw [hrest] at hm; exact absurd hm (by simp)
        | some rs =>
          rw [hrest] at hm
          obtain rfl := Option.some.inj hm
          have hlen' : ls'.length = cs'.length := by
            simpa using hlen
          simp [processItem_original _ _ _ _ _ _ _ _ hpc, ih ls' rs hlen' hrest]

/-- Claim C4 (amended): entries rejected by `is_valid_color` are silently
dropped and, whenever the call returns normally, the results are exactly
the normalized survivors in their original order; an entirely invalid
batch returns `[]` before the target is even parsed. -/
theorem C4_silent_drop_order_preserved :
    (∀ (colors : List String) (target : String) (intensity : ℝ) (mode : RecolorMode)
        (out : List ColorResult),
        ColorRecolorService.recolor_palette colors target intensity mode = some out →
        out.map ColorResult.original = validColors colors) ∧
      ColorRecolorService.recolor_palette ["zzzzzz"] "#3498db" 1
          RecolorMode.KEEP_HUE = some [] := by
  constructor
  · intro colors target intensity mode out hout
    unfold ColorRecolorService.recolor_palette at hout
    by_cases hv : validColors colors = []
    · rw [hv] at hout
      simp only [if_pos rfl] at hout
      obtain rfl := Option.some.inj hout
      rw [hv]
      rfl
    · rw [if_neg hv] at hout
      cases ht : targetHLSOf target with
      | none => rw [ht] at hout; exact absurd hout (by simp)
      | some thls =>
        rw [ht, Option.some_bind] at hout
        cases hl : mapOpt lumOf (validColors colors) with
        | none => rw [hl] at hout; exact absurd hout (by simp)
        | some lums =>
          rw [hl, Option.some_bind] at hout
          exact mapOpt_processItem_originals _ _ _ _ _ _ _ _
            (mapOpt_some_length _ _ _ hl) hout
  · unfold ColorRecolorService.recolor_palette
    rw [show validColors ["zzzzzz"] = [] from by decide]
    rfl

/-- Witness for C4, instantiated on the concrete run of
`recolor_palette(["#000000"], "#000000", 1.0, KEEP_HUE)`. -/
theorem C4_silent_drop_order_preserved_witness :
    ([⟨"#000000", "#382e2e", ColorUtility.relative_luminance 56 46 46⟩] :
        List ColorResult).map ColorResult.original = validColors ["#000000"] :=
  C4_silent_drop_order_preserved.1 ["#000000"] "#000000" 1 RecolorMode.KEEP_HUE
    _ run_black

/-- Counterexample to claim C4 as stated: with the valid target
`#3498db`, the entry `#abcd` also passes `is_valid_color` (Pillow parses
it as RGBA), yet the whole call fails — the surviving entry appears in no
result at all, because the 4-tuple returned by `getrgb` cannot be
unpacked by `relative_luminance`. -/
theorem C4_counterexample_surviving_rgba_entry_crashes :
    ColorUtility.is_valid_color "#3498db" = true ∧
      ColorUtility.is_valid_color "#abcd" = true ∧
      ColorRecolorService.recolor_palette ["#abcd"] "#3498db" 1
          RecolorMode.KEEP_HUE = none := by
  refine ⟨by decide, by decide, ?_⟩
  unfold ColorRecolorService.recolor_palette
  rw [show validColors ["#abcd"] = ["#abcd"] from by decide]
  rw [if_neg (by decide : ¬ (["#abcd"] : List String) = [])]
  rw [show targetHLSOf "#3498db" =
      some (rgb_to_hls ((52 : ℕ) / 255 : ℝ) ((152 : ℕ) / 255 : ℝ)
        ((219 : ℕ) / 255 : ℝ)) from by
    unfold targetHLSOf
    rw [show getrgbL ("#3498db".data) = some [52, 152, 219] from by decide]
    rfl]
  rw [Option.some_bind]
  have hm : mapOpt lumOf ["#abcd"] = none := by
    have habcd : lumOf "#abcd" = none := by
      unfold lumOf
      rw [show getrgbL ("#abcd".data) = some [170, 187, 204, 221] from by decide]
      rfl
    simp [mapOpt, habcd]
  rw [hm]
  rfl

/-! ## Character-class lemmas for the normalizer -/

theorem keepChar_mem (c : Char) (h : keepChar c = true) : c ∈ hexHashChars := by
  rw [keepChar] at h
  simpa using h

theorem pyToLower_keep (c : Char) (h : keepChar c = true) : pyToLower c = c := by
  have hm := keepChar_mem c h
  fin_cases hm <;> decide

theorem isPySpace_keep (c : Char) (h : keepChar c = true) : isPySpace c = false := by
  have hm := keepChar_mem c h
  fin_cases hm <;> decide

theorem cyrSubst_keep (c : Char) (h : keepChar c = true) : cyrSubst c = [c] := by
  have hm := keepChar_mem c h
  fin_cases hm <;> decide

theorem all_mem_of_all {l : List Char} {p : Char → Bool} (h : l.all p = true) :
    ∀ c ∈ l, p c = true :=
  List.all_eq_true.mp h

theorem dropWhile_of_none {p : Char → Bool} {l : List Char}
    (h : ∀ c ∈ l, p c = false) : l.dropWhile p = l := by
  cases l with
  | nil => rfl
  | cons a as =>
    rw [List.dropWhile_cons, if_neg]
    rw [h a (List.mem_cons_self a as)]
    simp

theorem pyStripL_keep (l : List Char) (h : l.all keepChar = true) :
    pyStripL l = l := by
  have hsp : ∀ c ∈ l, isPySpace c = false :=
    fun c hc => isPySpace_keep c (all_mem_of_all h c hc)
  unfold pyStripL
  rw [dropWhile_of_none hsp,
    dropWhile_of_none (fun c hc => hsp c (List.mem_reverse.mp hc)),
    List.reverse_reverse]

theorem pyLowerL_keep (l : List Char) (h : l.all keepChar = true) :
    pyLowerL l = l := by
  unfold pyLowerL
  induction l with
  | nil => rfl
  | cons a as ih =>
    rw [List.all_cons, Bool.and_eq_true] at h
    rw [List.map_cons, pyToLower_keep a h.1, ih h.2]

theorem cyrExpandL_keep (l : List Char) (h : l.all keepChar = true) :
    cyrExpandL l = l := by
  unfold cyrExpandL
  induction l with
  | nil => rfl
  | cons a as ih =>
    rw [List.all_cons, Bool.and_eq_true] at h
    rw [List.map_cons, List.flatten_cons, cyrSubst_keep a h.1, ih h.2]
    rfl

theorem hexFilterL_keep (l : List Char) (h : l.all keepChar = true) :
    hexFilterL l = l :=
  List.filter_eq_self.mpr (all_mem_of_all h)

theorem hexFilterL_all (l : List Char) : (hexFilterL l).all keepChar = true :=
  List.all_eq_true.mpr (fun _ hc => List.of_mem_filter hc)

theorem doubleChars_all (l : List Char) (h : l.all keepChar = true) :
    (doubleChars l).all keepChar = true := by
  unfold doubleChars
  induction l with
  | nil => rfl
  | cons a as ih =>
    rw [List.all_cons, Bool.and_eq_true] at h
    rw [List.map_cons, List.flatten_cons]
    simp only [List.all_append, Bool.and_eq_true]
    exact ⟨by simp [h.1], ih h.2⟩

theorem doubleChars_length (l : List Char) :
    (doubleChars l).length = 2 * l.length := by
  unfold doubleChars
  induction l with
  | nil => rfl
  | cons a as ih =>
    rw [List.map_cons, List.flatten_cons, List.length_append, ih]
    simp
    omega

theorem tail_all (l : List Char) (h : l.all keepChar = true) :
    l.tail.all keepChar = true := by
  cases l with
  | nil => rfl
  | cons a as =>
    rw [List.all_cons, Bool.and_eq_true] at h
    exact h.2

theorem shapeL_all (l : List Char) (h : l.all keepChar = true) :
    (shapeL l).all keepChar = true := by
  unfold shapeL
  split_ifs with h1 h2 h3 h4
  · rw [List.all_cons, Bool.and_eq_true]
    exact ⟨by decide, doubleChars_all _ (tail_all l h)⟩
  · rw [pyLowerL_keep l h]
    exact h
  · rw [List.all_cons, Bool.and_eq_true]
    exact ⟨by decide, doubleChars_all _ h⟩
  · rw [List.all_cons, Bool.and_eq_true]
    exact ⟨by decide, h⟩
  · exact h

theorem normalizeL_all (l : List Char) : (normalizeL l).all keepChar = true := by
  unfold normalizeL
  split_ifs with h
  · rw [h]
    rfl
  · exact shapeL_all _ (hexFilterL_all _)

theorem shapeL_shapeL (l : List Char) (h : l.all keepChar = true) :
    shapeL (shapeL l) = shapeL l := by
  by_cases h1 : l.head? = some '#'
  · by_cases h2 : l.length = 4
    · have e1 : shapeL l = '#' :: doubleChars l.tail := by
        unfold shapeL
        rw [if_pos h1, if_pos h2]
      have hall : ('#' :: doubleChars l.tail).all keepChar = true := by
        rw [List.all_cons, Bool.and_eq_true]
        exact ⟨by decide, doubleChars_all _ (tail_all l h)⟩
      have hlen : ('#' :: doubleChars l.tail).length = 7 := by
        simp [doubleChars_length, List.length_tail, h2]
      rw [e1]
      unfold shapeL
      rw [if_pos (by rfl), if_neg (by rw [hlen]; omega)]
      exact pyLowerL_keep _ hall
    · have e1 : shapeL l = pyLowerL l := by
        unfold shapeL
        rw [if_pos h1, if_neg h2]
      rw [e1, pyLowerL_keep l h]
      unfold shapeL
      rw [if_pos h1, if_neg h2]
      exact pyLowerL_keep l h
  · by_cases h3 : l.length = 3
    · have e1 : shapeL l = '#' :: doubleChars l := by
        unfold shapeL
        rw [if_neg h1, if_pos h3]
      have hall : ('#' :: doubleChars l).all keepChar = true := by
        rw [List.all_cons, Bool.and_eq_true]
        exact ⟨by decide, doubleChars_all _ h⟩
      have hlen : ('#' :: doubleChars l).length = 7 := by
        simp [doubleChars_length, h3]
      rw [e1]
      unfold shapeL
      rw [if_pos (by rfl), if_neg (by rw [hlen]; omega)]
      exact pyLowerL_keep _ hall
    · by_cases h4 : l.length = 6
      · have e1 : shapeL l = '#' :: l := by
          unfold shapeL
          rw [if_neg h1, if_neg h3, if_pos h4]
        rw [e1]
        unfold shapeL
        rw [if_pos (by rfl), if_neg (by simp [h4])]
        rw [pyLowerL_keep]
        rw [List.all_cons, Bool.and_eq_true]
        exact ⟨by decide, h⟩
      · have e1 : shapeL l = l := by
          unfold shapeL
          rw [if_neg h1, if_neg h3, if_neg h4]
        rw [e1, e1]

theorem normalizeL_idem (l : List Char) :
    normalizeL (normalizeL l) = normalizeL l := by
  by_cases h : l = []
  · rw [h]
    rfl
  · have hn : normalizeL l =
        shapeL (hexFilterL (cyrExpandL (pyLowerL (pyStripL l)))) := by
      unfold normalizeL
      rw [if_neg h]
    have hmall : (hexFilterL (cyrExpandL (pyLowerL (pyStripL l)))).all keepChar =
        true := hexFilterL_all _
    have hnall : (normalizeL l).all keepChar = true := normalizeL_all l
    by_cases hne : normalizeL l = []
    · rw [hne]
      rfl
    · rw [hn] at hnall hne ⊢
      calc normalizeL (shapeL (hexFilterL (cyrExpandL (pyLowerL (pyStripL l)))))
          = shapeL (hexFilterL (cyrExpandL (pyLowerL (pyStripL
              (shapeL (hexFilterL (cyrExpandL (pyLowerL (pyStripL l))))))))) := by
            unfold normalizeL
            rw [if_neg hne]
        _ = shapeL (shapeL (hexFilterL (cyrExpandL (pyLowerL (pyStripL l))))) := by
            rw [pyStripL_keep _ hnall, pyLowerL_keep _ hnall, cyrExpandL_keep _ hnall,
              hexFilterL_keep _ hnall]
        _ = shapeL (hexFilterL (cyrExpandL (pyLowerL (pyStripL l)))) :=
            shapeL_shapeL _ hmall

/-- Claim C6: normalization is idempotent —
`normalize(normalize(s)) == normalize(s)` for every string. -/
theorem C6_normalize_idempotent (s : String) :
    ColorUtility.normalize_color (ColorUtility.normalize_color s) =
      ColorUtility.normalize_color s := by
  show (⟨normalizeL (normalizeL s.data)⟩ : String) = ⟨normalizeL s.data⟩
  rw [normalizeL_idem]

/-! ## Characterizing `is_valid_color` -/

theorem lookup_none_of_ne {β : Type _} (a : String) :
    ∀ (l : List (String × β)), (∀ p ∈ l, a ≠ p.1) → List.lookup a l = none := by
  intro l
  induction l with
  | nil => intro _; rfl
  | cons p ps ih =>
    intro h
    obtain ⟨k, v⟩ := p
    have hne : (a == k) = false :=
      beq_false_of_ne (h (k, v) (List.mem_cons_self _ _))
    show (match a == k with
      | true => some v
      | false => List.lookup a ps) = none
    rw [hne]
    exact ih (fun q hq => h q (List.mem_cons_of_mem _ hq))

theorem lookup_colormap_none (s : String) (h : s.data.all keepChar = true) :
    List.lookup s colormap = none := by
  have hkeys : colormap.all (fun p => !(p.1.data.all keepChar)) = true := by decide
  refine lookup_none_of_ne s colormap (fun p hp => ?_)
  intro he
  have := List.all_eq_true.mp hkeys p hp
  rw [← he] at this
  rw [h] at this
  simp at this

/-- Every functional notation starts with a letter (`r` or `h`) outside
the `[0-9a-f#]` class, so none of them can match a `normalize_color`
output. -/
theorem expectStr_none (c0 : Char) (p l : List Char) (hl : l.all keepChar = true)
    (hc : keepChar c0 = false) : expectStr (c0 :: p) l = none := by
  unfold expectStr
  rw [if_neg]
  cases l with
  | nil => simp [List.isPrefixOf]
  | cons b bs =>
    have hb := all_mem_of_all hl b (List.mem_cons_self b bs)
    have hne : c0 ≠ b := by
      intro he
      rw [he, hb] at hc
      cases hc
    simp [List.isPrefixOf, beq_false_of_ne hne]

theorem matchRGBInt_keep (l : List Char) (h : l.all keepChar = true) :
    matchRGBInt l = none := by
  unfold matchRGBInt
  rw [expectStr_none 'r' _ _ h (by decide)]
  rfl

theorem matchRGBPct_keep (l : List Char) (h : l.all keepChar = true) :
    matchRGBPct l = none := by
  unfold matchRGBPct
  rw [expectStr_none 'r' _ _ h (by decide)]
  rfl

theorem matchHSL_keep (l : List Char) (h : l.all keepChar = true) :
    matchHSL l = none := by
  unfold matchHSL
  rw [expectStr_none 'h' _ _ h (by decide)]
  rfl

theorem matchHSV_keep (l : List Char) (h : l.all keepChar = true) :
    matchHSV l = none := by
  unfold matchHSV
  rw [expectStr_none 'h' _ _ h (by decide), expectStr_none 'h' _ _ h (by decide)]
  rfl

theorem matchRGBA_keep (l : List Char) (h : l.all keepChar = true) :
    matchRGBA l = none := by
  unfold matchRGBA
  rw [expectStr_none 'r' _ _ h (by decide)]
  rfl

theorem getrgbL_keep (l : List Char) (h : l.all keepChar = true) :
    getrgbL l = hexRGB l := by
  show (match List.lookup (⟨pyLowerL l⟩ : String) colormap with
    | some hex => hexRGB hex.data
    | none =>
        hexRGB (pyLowerL l) <|> matchRGBInt (pyLowerL l) <|>
          matchRGBPct (pyLowerL l) <|> matchHSL (pyLowerL l) <|>
          matchHSV (pyLowerL l) <|> matchRGBA (pyLowerL l)) = hexRGB l
  rw [pyLowerL_keep l h, lookup_colormap_none ⟨l⟩ h, matchRGBInt_keep l h,
    matchRGBPct_keep l h, matchHSL_keep l h, matchHSV_keep l h, matchRGBA_keep l h]
  cases hexRGB l <;> rfl

theorem getLast_keep_ne_newline (l : List Char) (h : l.all keepChar = true) :
    ¬ l.getLast? = some '\n' := by
  intro hl
  have hm : '\n' ∈ l := by
    obtain ⟨hne, heq⟩ :=
      List.mem_getLast?_eq_getLast (Option.mem_def.mpr hl)
    rw [heq]
    exact List.getLast_mem hne
  have := all_mem_of_all h _ hm
  exact absurd this (by decide)

theorem hexRGB_isSome_keep (l : List Char) (h : l.all keepChar = true) :
    (hexRGB l).isSome = true ↔
      ∃ ds, l = '#' :: ds ∧ ds.all isHexDigit = true ∧
        (ds.length = 3 ∨ ds.length = 4 ∨ ds.length = 6 ∨ ds.length = 8) := by
  have hcore : (if l.getLast? = some '\n' then l.dropLast else l) = l :=
    if_neg (getLast_keep_ne_newline l h)
  cases l with
  | nil => simp [hexRGB]
  | cons c0 cs =>
    have he : hexRGB (c0 :: cs) =
        (if c0 = '#' then (if cs.all isHexDigit then hexCore cs else none)
          else none) := by
      unfold hexRGB
      rw [hcore]
    rw [he]
    by_cases hc : c0 = '#'
    · subst hc
      rw [if_pos rfl]
      by_cases hd : cs.all isHexDigit
      · rw [if_pos hd]
        rcases cs with _ | ⟨a1, _ | ⟨a2, _ | ⟨a3, _ | ⟨a4, _ | ⟨a5, _ | ⟨a6,
          _ | ⟨a7, _ | ⟨a8, _ | ⟨a9, rest⟩⟩⟩⟩⟩⟩⟩⟩⟩ <;>
          first
            | exact iff_of_true rfl ⟨_, rfl, hd, by simp⟩
            | (refine iff_of_false (by simp [hexCore]) ?_
               rintro ⟨ds, hds, _, hlen⟩
               injection hds with h1 h2
               subst h2
               simp only [List.length_cons, List.length_nil] at hlen
               omega)
      · rw [if_neg hd]
        refine iff_of_false (by simp) ?_
        rintro ⟨ds, hds, hall, _⟩
        injection hds with h1 h2
        subst h2
        exact hd hall
    · rw [if_neg hc]
      refine iff_of_false (by simp) ?_
      rintro ⟨ds, hds, _, _⟩
      injection hds with h1 h2
      exact hc h1

theorem shapeL_not_hash4 (m : List Char) (hh : (shapeL m).head? = some '#') :
    (shapeL m).length ≠ 4 := by
  unfold shapeL at hh ⊢
  split_ifs at hh ⊢ with h1 h2 h3 h4
  · simp [doubleChars_length, List.length_tail, h2]
  · simp only [pyLowerL, List.length_map]
    exact h2
  · simp [doubleChars_length, h3]
  · simp [h4]
  · exact absurd hh h1

theorem normalizeL_not_hash4 (l ds : List Char) (h : normalizeL l = '#' :: ds) :
    ds.length ≠ 3 := by
  by_cases hl : l = []
  · rw [hl] at h
    exact absurd h (by simp [normalizeL])
  · have hn : normalizeL l =
        shapeL (hexFilterL (cyrExpandL (pyLowerL (pyStripL l)))) := by
      unfold normalizeL
      rw [if_neg hl]
    rw [hn] at h
    have h4 := shapeL_not_hash4 (hexFilterL (cyrExpandL (pyLowerL (pyStripL l))))
      (by rw [h]; rfl)
    rw [h] at h4
    simp only [List.length_cons] at h4
    omega

theorem pyStripL_all_space (l : List Char) (h : l.all isPySpace = true) :
    pyStripL l = [] := by
  unfold pyStripL
  rw [List.dropWhile_eq_nil_iff.mpr (fun x hx => all_mem_of_all h x hx)]
  rfl

/-- Claim C3 (amended): `is_valid(x)` holds iff `normalize(x)` is `#`
followed by exactly four, six or eight hexadecimal digits (six is the RGB
form of the claim; four and eight are the RGBA shorthand/full forms that
Pillow's parser also accepts); every empty or whitespace-only string is
invalid. -/
theorem C3_is_valid_iff_hex_shape :
    (∀ s : String,
        ColorUtility.is_valid_color s = true ↔
          hex468Shape (ColorUtility.normalize_color s) = true) ∧
      (∀ s : String, s.data.all isPySpace = true →
        ColorUtility.is_valid_color s = false) := by
  constructor
  · intro s
    show (if s.data = [] then false
      else if pyStripL s.data = [] then false
      else if normalizeL s.data = [] then false
      else (getrgbL (normalizeL s.data)).isSome) = true ↔ _
    split_ifs with he hst hnn
    · simp [ColorUtility.normalize_color, he, normalizeL, hex468Shape]
    · have hz : normalizeL s.data = [] := by
        unfold normalizeL
        rw [if_neg he, hst]
        rfl
      simp [ColorUtility.normalize_color, hz, hex468Shape]
    · simp [ColorUtility.normalize_color, hnn, hex468Shape]
    · have hall := normalizeL_all s.data
      rw [getrgbL_keep _ hall, hexRGB_isSome_keep _ hall]
      show _ ↔ hex468Shape ⟨normalizeL s.data⟩ = true
      constructor
      · rintro ⟨ds, hds, hhex, hlen⟩
        have h3 : ds.length ≠ 3 := normalizeL_not_hash4 _ _ hds
        show (match normalizeL s.data with
          | c0 :: ds =>
            (c0 = '#' && (ds.length = 4 || ds.length = 6 || ds.length = 8) &&
              ds.all isHexDigit : Bool)
          | [] => false) = true
        rw [hds]
        rcases hlen with hl3 | hl | hl | hl
        · exact absurd hl3 h3
        all_goals simp [hl, hhex]
      · intro hshape
        have hshape' : (match normalizeL s.data with
          | c0 :: ds =>
            (c0 = '#' && (ds.length = 4 || ds.length = 6 || ds.length = 8) &&
              ds.all isHexDigit : Bool)
          | [] => false) = true := hshape
        cases hns : normalizeL s.data with
        | nil => rw [hns] at hshape'; simp at hshape'
        | cons c0 ds =>
          rw [hns] at hshape'
          simp only [Bool.and_eq_true, decide_eq_true_eq, Bool.or_eq_true] at hshape'
          obtain ⟨⟨hc0, hlens⟩, hhex⟩ := hshape'
          subst hc0
          exact ⟨ds, rfl, hhex, Or.inr (or_assoc.mp hlens)⟩
  · intro s hsp
    show (if s.data = [] then false
      else if pyStripL s.data = [] then false
      else if normalizeL s.data = [] then false
      else (getrgbL (normalizeL s.data)).isSome) = false
    by_cases he : s.data = []
    · rw [if_pos he]
    · rw [if_neg he, if_pos (pyStripL_all_space _ hsp)]

/-- Witness for C3 on a whitespace-only input. -/
theorem C3_is_valid_iff_hex_shape_witness :
    ColorUtility.is_valid_color " " = false :=
  C3_is_valid_iff_hex_shape.2 " " (by decide)

/-- Counterexample to claim C3 as stated: `#abcd` is accepted by
`is_valid_color` (Pillow parses the RGBA shorthand), yet its
normalization is not `#` plus exactly six hex digits. -/
theorem C3_counterexample_rgba_shorthand :
    ColorUtility.is_valid_color "#abcd" = true ∧
      sixHexShape (ColorUtility.normalize_color "#abcd") = false := by
  decide

end ColorNedoHunt
